import Mathlib

/-!
# Horizon client request builders and stream callbacks

A shallow embedding of `exp/clients/horizon` (package `horizonclient`):
`OperationRequest.BuildUrl`, `TransactionRequest.BuildUrl`, `OperationRequest.Stream`
and `TransactionRequest.StreamTransactions`, together with the pieces of the Go
standard library (`net/url`, `strconv`, `strings`) and of `support/errors` they call.

Go strings are byte sequences; they are embedded as lists of bytes.
-/

/-- A Go `string` (and a Go `[]byte`): a finite sequence of bytes. -/
abbrev GoString := List UInt8

/-- The bytes of a string literal of the source (UTF-8, as the Go compiler stores it). -/
def go (s : String) : GoString := s.toUTF8.data.toList

/-- A Go `error` value, observed through its `Error()` message. -/
structure GoError where
  /-- The text returned by the `Error()` method. -/
  Error : GoString
deriving DecidableEq

/-! ## `strconv` and `fmt` verbs -/

namespace strconv

/-- The loop of `strconv.Itoa` on a non-negative value: least significant digit first,
pushed in front of the digits already produced. The first argument bounds the number of
iterations and is never exhausted when it exceeds the number of digits. -/
def formatDigits : Nat → Nat → GoString → GoString
  | 0, _, acc => acc
  | fuel + 1, n, acc =>
    if n / 10 = 0 then UInt8.ofNat (48 + n % 10) :: acc
    else formatDigits fuel (n / 10) (UInt8.ofNat (48 + n % 10) :: acc)

/-- The decimal text of an unsigned integer: `strconv.Itoa` on a non-negative value,
and the `%d` verb of `fmt.Sprintf` on a `uint`. -/
def Itoa (n : Nat) : GoString := formatDigits (n + 1) n []

end strconv

/-! ## `strings` -/

namespace strings

/-- The function `strings.Index`: the position of the first occurrence of `sep` in `s`. -/
def Index : GoString → GoString → Option Nat
  | [], sep => if sep.isPrefixOf [] then some 0 else none
  | c :: t, sep =>
    if sep.isPrefixOf (c :: t) then some 0 else (Index t sep).map (· + 1)

/-- The function `strings.LastIndex`: the position of the last occurrence of `sep` in `s`. -/
def LastIndex : GoString → GoString → Option Nat
  | [], sep => if sep.isPrefixOf [] then some 0 else none
  | c :: t, sep =>
    match LastIndex t sep with
    | some i => some (i + 1)
    | none => if sep.isPrefixOf (c :: t) then some 0 else none

end strings

/-! ## `support/errors` -/

namespace errors

/-- The constructor `errors.New`: an error with the given message. -/
def New (text : GoString) : GoError := ⟨text⟩

/-- The function `errors.Wrap`: `nil` stays `nil`; otherwise the message becomes
`message + ": " + err.Error()`. -/
def Wrap (err : Option GoError) (message : GoString) : Option GoError :=
  match err with
  | none => none
  | some e => some ⟨message ++ go ": " ++ e.Error⟩

end errors

/-! ## `net/url`

The escaping and parsing functions of the Go standard library, after `url.go` of Go 1.12,
the release the package was written against. `Parse` is followed for its error only. -/

namespace url

/-- The escaping modes of `net/url`. -/
inductive encoding
  | encodePath
  | encodePathSegment
  | encodeHost
  | encodeZone
  | encodeUserPassword
  | encodeQueryComponent
  | encodeFragment
deriving DecidableEq

/-- The ASCII letters and digits, which no mode escapes. -/
def isAlnum (c : UInt8) : Bool :=
  (65 ≤ c.toNat && c.toNat ≤ 90) || (97 ≤ c.toNat && c.toNat ≤ 122) ||
    (48 ≤ c.toNat && c.toNat ≤ 57)

/-- The unreserved marks of RFC 3986 §2.3: the bytes of `-`, `_`, `.` and `~`. -/
def isMark (c : UInt8) : Bool :=
  c.toNat = 45 || c.toNat = 95 || c.toNat = 46 || c.toNat = 126

/-- The reserved characters, the bytes of `$ & + , / : ; = ? @`. -/
def isReserved (c : UInt8) : Bool :=
  c.toNat = 36 || c.toNat = 38 || c.toNat = 43 || c.toNat = 44 || c.toNat = 47 ||
    c.toNat = 58 || c.toNat = 59 || c.toNat = 61 || c.toNat = 63 || c.toNat = 64

/-- The extra bytes a host may hold unescaped: `! $ & ' ( ) * + , ; = : [ ] < > "`. -/
def isHostExtra (c : UInt8) : Bool :=
  c.toNat = 33 || c.toNat = 36 || c.toNat = 38 || c.toNat = 39 || c.toNat = 40 ||
    c.toNat = 41 || c.toNat = 42 || c.toNat = 43 || c.toNat = 44 || c.toNat = 59 ||
    c.toNat = 61 || c.toNat = 58 || c.toNat = 91 || c.toNat = 93 || c.toNat = 60 ||
    c.toNat = 62 || c.toNat = 34

/-- The function `shouldEscape`: whether byte `c` must be percent-encoded in `mode`. -/
def shouldEscape (c : UInt8) (mode : encoding) : Bool :=
  if isAlnum c then false
  else if (mode = .encodeHost || mode = .encodeZone) && isHostExtra c then false
  else if isMark c then false
  else if isReserved c then
    match mode with
    | .encodePath => c.toNat = 63
    | .encodePathSegment => c.toNat = 47 || c.toNat = 59 || c.toNat = 44 || c.toNat = 63
    | .encodeUserPassword => c.toNat = 64 || c.toNat = 47 || c.toNat = 63 || c.toNat = 58
    | .encodeQueryComponent => true
    | .encodeFragment => false
    | .encodeHost => true
    | .encodeZone => true
  else if mode = .encodeFragment &&
      (c.toNat = 33 || c.toNat = 40 || c.toNat = 41 || c.toNat = 42) then false
  else true

/-- One digit of `"0123456789ABCDEF"`. -/
def upperhex (n : Nat) : UInt8 :=
  if n < 10 then UInt8.ofNat (48 + n) else UInt8.ofNat (55 + n)

/-- The function `escape`: a space becomes `+` in a query component, a byte that
`shouldEscape` becomes `%XX`, every other byte is kept. -/
def escape (s : GoString) (mode : encoding) : GoString :=
  s.flatMap fun c =>
    if c.toNat = 32 && mode = .encodeQueryComponent then [43]
    else if shouldEscape c mode then [37, upperhex (c.toNat / 16), upperhex (c.toNat % 16)]
    else [c]

/-- The function `url.QueryEscape`. -/
def QueryEscape (s : GoString) : GoString := escape s .encodeQueryComponent

/-- The type `url.Values`, a map from keys to the values added under them: one entry
per key, the values in the order they were added. -/
abbrev Values := List (GoString × List GoString)

/-- The method `Values.Add`: appends `value` to the values of `key`. -/
def Values.Add : Values → GoString → GoString → Values
  | [], key, value => [(key, [value])]
  | (k, vs) :: rest, key, value =>
    if k = key then (k, vs ++ [value]) :: rest else (k, vs) :: Values.Add rest key value

/-- The method `Values.Set`: replaces the values of `key` by the single `value`. -/
def Values.Set : Values → GoString → GoString → Values
  | [], key, value => [(key, [value])]
  | (k, vs) :: rest, key, value =>
    if k = key then (k, [value]) :: rest else (k, vs) :: Values.Set rest key value

/-- The method `Values.Get`-style lookup `v[key]`: the values stored under `key`. -/
def Values.lookup : Values → GoString → List GoString
  | [], _ => []
  | (k, vs) :: rest, key => if k = key then vs else Values.lookup rest key

/-- The order `<=` of Go strings: byte-wise lexicographic. -/
def stringLE : GoString → GoString → Bool
  | [], _ => true
  | _ :: _, [] => false
  | a :: as, b :: bs =>
    if a.toNat < b.toNat then true
    else if b.toNat < a.toNat then false
    else stringLE as bs

/-- Insertion of one key into a sorted list of keys. -/
def insertSorted (k : GoString) : List GoString → List GoString
  | [] => [k]
  | h :: t => if stringLE k h then k :: h :: t else h :: insertSorted k t

/-- The function `sort.Strings`. -/
def sortStrings (keys : List GoString) : List GoString :=
  keys.foldr insertSorted []

/-- The inner loop of `Values.Encode` for one key: each value is written as
`key=value`, after a `&` when the buffer already holds something. -/
def encodeKey (keyEscaped : GoString) (vs : List GoString) (buf : GoString) : GoString :=
  vs.foldl
    (fun buf v => (if buf.length > 0 then buf ++ [38] else buf) ++ keyEscaped ++ [61] ++ QueryEscape v)
    buf

/-- The method `Values.Encode`: the keys in sorted order, each with its values. -/
def Values.Encode (v : Values) : GoString :=
  (sortStrings (v.map Prod.fst)).foldl
    (fun buf k => encodeKey (QueryEscape k) (Values.lookup v k) buf) []

/-- Why `url.Parse` rejects a string. -/
inductive ParseFailure
  | invalidControlCharacter
  | missingProtocolScheme
  | firstPathSegmentColon
  | escapeError (s : GoString)
  | invalidHostError (s : GoString)
  | missingBracket
  | invalidPort (s : GoString)
  | invalidUserinfo
deriving DecidableEq

/-- The function `ishex`. -/
def ishex (c : UInt8) : Bool :=
  (48 ≤ c.toNat && c.toNat ≤ 57) || (97 ≤ c.toNat && c.toNat ≤ 102) ||
    (65 ≤ c.toNat && c.toNat ≤ 70)

/-- The function `unhex`. -/
def unhex (c : UInt8) : Nat :=
  if 48 ≤ c.toNat && c.toNat ≤ 57 then c.toNat - 48
  else if 97 ≤ c.toNat && c.toNat ≤ 102 then c.toNat - 97 + 10
  else if 65 ≤ c.toNat && c.toNat ≤ 70 then c.toNat - 65 + 10
  else 0

/-- The validation pass of `unescape`: the error it returns, if any. The decoded text
is not needed by `Parse` callers that only look at the error. -/
def unescapeError (mode : encoding) : GoString → Option ParseFailure
  | [] => none
  | [c] =>
    if c.toNat = 37 then some (.escapeError [c])
    else if c.toNat = 43 then none
    else if (mode = .encodeHost || mode = .encodeZone) && c.toNat < 128 &&
        shouldEscape c .encodeHost then some (.invalidHostError [c])
    else none
  | [c, d] =>
    if c.toNat = 37 then some (.escapeError [c, d])
    else if c.toNat = 43 then unescapeError mode [d]
    else if (mode = .encodeHost || mode = .encodeZone) && c.toNat < 128 &&
        shouldEscape c .encodeHost then some (.invalidHostError [c])
    else unescapeError mode [d]
  | c :: h1 :: h2 :: rest =>
    if c.toNat = 37 then
      if !ishex h1 || !ishex h2 then some (.escapeError [c, h1, h2])
      else if mode = .encodeHost && unhex h1 < 8 && !(h1.toNat = 50 && h2.toNat = 53) then
        some (.escapeError [c, h1, h2])
      else if mode = .encodeZone && !(h1.toNat = 50 && h2.toNat = 53) &&
          unhex h1 * 16 + unhex h2 != 32 &&
          shouldEscape (UInt8.ofNat (unhex h1 * 16 + unhex h2)) .encodeHost then
        some (.escapeError [c, h1, h2])
      else unescapeError mode rest
    else if c.toNat = 43 then unescapeError mode (h1 :: h2 :: rest)
    else if (mode = .encodeHost || mode = .encodeZone) && c.toNat < 128 &&
        shouldEscape c .encodeHost then some (.invalidHostError [c])
    else unescapeError mode (h1 :: h2 :: rest)

/-- The function `stringContainsCTLByte`: a byte below the space, or `0x7f`. -/
def stringContainsCTLByte (s : GoString) : Bool :=
  s.any fun b => b.toNat < 32 || b.toNat = 127

/-- The function `split`: `s` cut at the first occurrence of `c`, which is dropped
when `cutc` is set; `(s, "")` when `c` does not occur. -/
def split (s c : GoString) (cutc : Bool) : GoString × GoString :=
  match strings.Index s c with
  | none => (s, [])
  | some i => if cutc then (s.take i, s.drop (i + c.length)) else (s.take i, s.drop i)

/-- The loop of `getscheme` from position `i`, over the bytes not yet read. -/
def getschemeFrom (rawurl : GoString) : Nat → GoString → Except ParseFailure (GoString × GoString)
  | _, [] => .ok ([], rawurl)
  | i, c :: cs =>
    if (97 ≤ c.toNat && c.toNat ≤ 122) || (65 ≤ c.toNat && c.toNat ≤ 90) then
      getschemeFrom rawurl (i + 1) cs
    else if (48 ≤ c.toNat && c.toNat ≤ 57) || c.toNat = 43 || c.toNat = 45 || c.toNat = 46 then
      if i = 0 then .ok ([], rawurl) else getschemeFrom rawurl (i + 1) cs
    else if c.toNat = 58 then
      if i = 0 then .error .missingProtocolScheme
      else .ok (rawurl.take i, rawurl.drop (i + 1))
    else .ok ([], rawurl)

/-- The function `getscheme`: the scheme before the first `:` and the rest, or no
scheme at all. -/
def getscheme (rawurl : GoString) : Except ParseFailure (GoString × GoString) :=
  getschemeFrom rawurl 0 rawurl

/-- The function `validOptionalPort`: empty, or a colon followed by digits. -/
def validOptionalPort : GoString → Bool
  | [] => true
  | c :: digits => c.toNat = 58 && digits.all fun b => 48 ≤ b.toNat && b.toNat ≤ 57

/-- The function `validUserinfo`: letters, digits and the bytes of
`- . _ : ~ ! $ & ' ( ) * + , ; = % @` only. -/
def validUserinfo (s : GoString) : Bool :=
  s.all fun r =>
    isAlnum r || r.toNat = 45 || r.toNat = 46 || r.toNat = 95 || r.toNat = 58 ||
      r.toNat = 126 || r.toNat = 33 || r.toNat = 36 || r.toNat = 38 || r.toNat = 39 ||
      r.toNat = 40 || r.toNat = 41 || r.toNat = 42 || r.toNat = 43 || r.toNat = 44 ||
      r.toNat = 59 || r.toNat = 61 || r.toNat = 37 || r.toNat = 64

/-- The function `parseHost`, reduced to its error. -/
def parseHost (host : GoString) : Option ParseFailure :=
  if (go "[").isPrefixOf host then
    match strings.LastIndex host (go "]") with
    | none => some .missingBracket
    | some i =>
      if !validOptionalPort (host.drop (i + 1)) then some (.invalidPort (host.drop (i + 1)))
      else
        match strings.Index (host.take i) (go "%25") with
        | some zone =>
          (unescapeError .encodeHost (host.take zone)).orElse fun _ =>
          (unescapeError .encodeZone ((host.take i).drop zone)).orElse fun _ =>
          unescapeError .encodeHost (host.drop i)
        | none => unescapeError .encodeHost host
  else unescapeError .encodeHost host

/-- The function `parseAuthority`, reduced to its error. -/
def parseAuthority (authority : GoString) : Option ParseFailure :=
  match strings.LastIndex authority (go "@") with
  | none => parseHost authority
  | some i =>
    (parseHost (authority.drop (i + 1))).orElse fun _ =>
    let userinfo := authority.take i
    if !validUserinfo userinfo then some .invalidUserinfo
    else if (strings.Index userinfo (go ":")).isNone then
      unescapeError .encodeUserPassword userinfo
    else
      (unescapeError .encodeUserPassword (split userinfo (go ":") true).1).orElse fun _ =>
      unescapeError .encodeUserPassword (split userinfo (go ":") true).2

/-- The function `parse` (with `viaRequest` false), reduced to its error: control
bytes, the scheme, the query cut off at the first `?`, the colon rule for a relative
first segment, the authority after `//`, and the escapes of the path. -/
def parseError (rawurl : GoString) : Option ParseFailure :=
  if stringContainsCTLByte rawurl then some .invalidControlCharacter
  else if rawurl = go "*" then none
  else
    match getscheme rawurl with
    | .error e => some e
    | .ok (scheme, rest0) =>
      let rest := (split rest0 (go "?") true).1
      if !(go "/").isPrefixOf rest && scheme ≠ [] then none
      else if !(go "/").isPrefixOf rest &&
          (match strings.Index rest (go ":"), strings.Index rest (go "/") with
            | some colon, some slash => decide (colon < slash)
            | some _, none => true
            | none, _ => false) then
        some .firstPathSegmentColon
      else if (scheme ≠ [] || !(go "///").isPrefixOf rest) && (go "//").isPrefixOf rest then
        (parseAuthority (split (rest.drop 2) (go "/") false).1).orElse fun _ =>
        unescapeError .encodePath (split (rest.drop 2) (go "/") false).2
      else unescapeError .encodePath rest

/-- The function `url.Parse`, reduced to its error: the part before the first `#` goes
through `parse`, then the escapes of a non-empty fragment are checked. -/
def ParseFailed (rawurl : GoString) : Option ParseFailure :=
  (parseError (split rawurl (go "#") true).1).orElse fun _ =>
  if (split rawurl (go "#") true).2 = [] then none
  else unescapeError .encodeFragment (split rawurl (go "#") true).2

/-- The function `url.Parse` as `BuildUrl` uses it (the parsed URL is discarded): `nil`
or an error. The wording of the error of the library is the argument `describe`. -/
def Parse (describe : GoString → ParseFailure → GoString) (rawurl : GoString) :
    Option GoError :=
  (ParseFailed rawurl).map fun why => ⟨describe rawurl why⟩

/-- The decoding pass of `unescape`, which runs once the validation pass has found no
error: `%XX` gives the byte `unhex(X)<<4 | unhex(X)`, a `+` gives a space in a query
component, every other byte is kept. -/
def unescapeDecode (mode : encoding) : GoString → GoString
  | [] => []
  | c :: rest =>
    if c.toNat = 37 then
      match rest with
      | h1 :: h2 :: rest' => UInt8.ofNat (unhex h1 * 16 + unhex h2) :: unescapeDecode mode rest'
      | _ => []
    else if c.toNat = 43 then
      (if mode = .encodeQueryComponent then 32 else 43) :: unescapeDecode mode rest
    else c :: unescapeDecode mode rest

/-- The function `unescape`: the validation pass, then `s` itself when it holds no `%`
and no `+` that stands for a space, and the decoding pass otherwise. -/
def unescape (s : GoString) (mode : encoding) : Except ParseFailure GoString :=
  match unescapeError mode s with
  | some e => .error e
  | none =>
    if s.all (fun c => c.toNat ≠ 37) &&
        !(mode = .encodeQueryComponent && s.any (fun c => c.toNat = 43)) then .ok s
    else .ok (unescapeDecode mode s)

/-- The function `url.QueryUnescape`. -/
def QueryUnescape (s : GoString) : Except ParseFailure GoString :=
  unescape s .encodeQueryComponent

end url

/-! ## Package `horizonclient` -/

namespace horizonclient

/-- Modelled from the spec: the request struct `OperationRequest`, declared outside the
request files. The identifying filters are `ForAccount`, `ForLedger`, `forOperationId`
and `ForTransaction`; the paging fields are `Cursor`, `Limit`, `Order` and
`IncludeFailed`; `endpoint` is `operations` or `payments` once a setter has run. The
zero value of a Go struct is the default of every field. A `uint` is a natural number:
no arithmetic is done on it. -/
structure OperationRequest where
  ForAccount : GoString := []
  ForLedger : Nat := 0
  ForTransaction : GoString := []
  forOperationId : GoString := []
  Order : GoString := []
  Cursor : GoString := []
  Limit : Nat := 0
  IncludeFailed : Bool := false
  endpoint : GoString := []
deriving DecidableEq

/-- Modelled from the spec: the request struct `TransactionRequest`, declared outside the
request files, with the identifying filters `ForAccount`, `ForLedger` and
`forTransactionHash` and the paging fields of every request. -/
structure TransactionRequest where
  ForAccount : GoString := []
  ForLedger : Nat := 0
  forTransactionHash : GoString := []
  Order : GoString := []
  Cursor : GoString := []
  Limit : Nat := 0
  IncludeFailed : Bool := false
deriving DecidableEq

/-- Modelled from the spec: the sort order constant `OrderAsc`, the value `asc`. -/
def OrderAsc : GoString := go "asc"

/-- Modelled from the spec: the sort order constant `OrderDesc`, the value `desc`. -/
def OrderDesc : GoString := go "desc"

/-- An argument of the variadic `countParams`: a string or an unsigned integer. -/
inductive Param
  | str (s : GoString)
  | uint (n : Nat)
deriving DecidableEq

/-- Modelled from the spec: the helper `countParams`, which is not in the request files.
It counts the identifying filters that are set: a string that is not empty, an integer
greater than zero. -/
def countParams (params : List Param) : Nat :=
  params.foldl
    (fun counter param =>
      match param with
      | .str s => if s ≠ [] then counter + 1 else counter
      | .uint n => if n > 0 then counter + 1 else counter)
    0

/-- An argument of the variadic `addQueryParams`, tagged by its Go type: `cursor`,
`limit`, `Order` or `includeFailed`. -/
inductive QueryParam
  | cursor (c : GoString)
  | limit (n : Nat)
  | order (o : GoString)
  | includeFailed (b : Bool)
deriving DecidableEq

/-- Modelled from the spec: the helper `addQueryParams`, which is not in the request
files. Each paging field that is set is added to a `url.Values` (`cursor` when the
cursor is not empty, `limit` when the limit is not zero, `order` when the order is not
empty, `include_failed=true` when the flag is set), and the values are encoded, which
sorts the keys and escapes keys and values. -/
def addQueryParams (params : List QueryParam) : GoString :=
  url.Values.Encode <|
    params.foldl
      (fun (query : url.Values) param =>
        match param with
        | .cursor c => if c ≠ [] then url.Values.Add query (go "cursor") c else query
        | .limit n => if n ≠ 0 then url.Values.Add query (go "limit") (strconv.Itoa n) else query
        | .order o => if o ≠ [] then url.Values.Add query (go "order") o else query
        | .includeFailed b =>
          if b then url.Values.Add query (go "include_failed") (go "true") else query)
      []

/-- The method `OperationRequest.BuildUrl`: the endpoint and the error. `Parse` is
`url.Parse` of the standard library, of which only the error is used. -/
def OperationRequest.BuildUrl (Parse : GoString → Option GoError) (op : OperationRequest) :
    GoString × Option GoError :=
  let nParams := countParams
    [.str op.ForAccount, .uint op.ForLedger, .str op.forOperationId, .str op.ForTransaction]
  if nParams > 1 then
    ([], some (errors.New (go "Invalid request. Too many parameters")))
  else if op.endpoint = [] then
    ([], some (errors.New (go "Internal error, endpoint not set")))
  else
    let endpoint := op.endpoint
    let endpoint :=
      if op.ForAccount ≠ [] then go "accounts/" ++ op.ForAccount ++ go "/" ++ op.endpoint
      else endpoint
    let endpoint :=
      if op.ForLedger > 0 then go "ledgers/" ++ strconv.Itoa op.ForLedger ++ go "/" ++ op.endpoint
      else endpoint
    let endpoint :=
      if op.forOperationId ≠ [] then go "operations/" ++ op.forOperationId else endpoint
    let endpoint :=
      if op.ForTransaction ≠ [] then
        go "transactions/" ++ op.ForTransaction ++ go "/" ++ op.endpoint
      else endpoint
    let queryParams := addQueryParams
      [.cursor op.Cursor, .limit op.Limit, .order op.Order, .includeFailed op.IncludeFailed]
    let endpoint := if queryParams ≠ [] then endpoint ++ go "?" ++ queryParams else endpoint
    (endpoint, errors.Wrap (Parse endpoint) (go "failed to parse endpoint"))

/-- The method `OperationRequest.setEndpoint`. -/
def OperationRequest.setEndpoint (op : OperationRequest) (endpoint : GoString) :
    OperationRequest :=
  if endpoint = go "payments" then { op with endpoint := endpoint }
  else { op with endpoint := go "operations" }

/-- The method `OperationRequest.SetPaymentsEndpoint`. -/
def OperationRequest.SetPaymentsEndpoint (op : OperationRequest) : OperationRequest :=
  op.setEndpoint (go "payments")

/-- The method `OperationRequest.SetOperationsEndpoint`. -/
def OperationRequest.SetOperationsEndpoint (op : OperationRequest) : OperationRequest :=
  op.setEndpoint (go "operations")

/-- The method `TransactionRequest.BuildUrl`: the endpoint and the error. `Parse` is
`url.Parse` of the standard library, of which only the error is used. -/
def TransactionRequest.BuildUrl (Parse : GoString → Option GoError) (tr : TransactionRequest) :
    GoString × Option GoError :=
  let nParams := countParams [.str tr.ForAccount, .uint tr.ForLedger, .str tr.forTransactionHash]
  if nParams > 1 then
    ([], some (errors.New (go "Invalid request. Too many parameters")))
  else
    let endpoint := go "transactions"
    let endpoint :=
      if tr.ForAccount ≠ [] then go "accounts/" ++ tr.ForAccount ++ go "/transactions"
      else endpoint
    let endpoint :=
      if tr.ForLedger > 0 then go "ledgers/" ++ strconv.Itoa tr.ForLedger ++ go "/transactions"
      else endpoint
    let endpoint :=
      if tr.forTransactionHash ≠ [] then go "transactions/" ++ tr.forTransactionHash
      else endpoint
    let queryParams := addQueryParams
      [.cursor tr.Cursor, .limit tr.Limit, .order tr.Order, .includeFailed tr.IncludeFailed]
    let endpoint := if queryParams ≠ [] then endpoint ++ go "?" ++ queryParams else endpoint
    (endpoint, errors.Wrap (Parse endpoint) (go "failed to parse endpoint"))

/-- Modelled from the spec: the streaming side of `Client`, which is not in the request
files. `getHorizonURL` is the base URL of the client; `stream` is the streaming session
`client.stream(ctx, url, onPayload)`: it is given the URL and the per-payload callback,
runs against the state of the caller and the network, and returns an error or `nil`. The
context `ctx` is part of what the session does. -/
structure Client (σ : Type) where
  getHorizonURL : GoString
  stream : GoString → (GoString → σ → σ × Option GoError) → σ → σ × Option GoError

/-- The decoders the callbacks call, which live in `encoding/json` and in
`protocols/horizon`: `json.Unmarshal` into an `operations.Base`, the `GetType` method of
that envelope, the dispatcher `operations.UnmarshalOperation`, and `json.Unmarshal` into
a `hProtocol.Transaction`. -/
structure Codec (Base Operation Transaction : Type) where
  unmarshalBase : GoString → Except GoError Base
  GetType : Base → GoString
  UnmarshalOperation : GoString → GoString → Except GoError Operation
  unmarshalTransaction : GoString → Except GoError Transaction

/-- The function literal that `OperationRequest.Stream` passes to `client.stream`: the
per-payload callback. A call of the handler of the caller is a step on the state `σ`. -/
def OperationRequest.onPayload {σ Base Operation Transaction : Type}
    (codec : Codec Base Operation Transaction) (handler : Operation → σ → σ)
    (data : GoString) (s : σ) : σ × Option GoError :=
  match codec.unmarshalBase data with
  | .error err => (s, errors.Wrap (some err) (go "Error unmarshaling data"))
  | .ok baseRecord =>
    match codec.UnmarshalOperation (codec.GetType baseRecord) data with
    | .error err => (s, errors.Wrap (some err) (go "Unmarshaling to the correct operation type"))
    | .ok ops => (handler ops s, none)

/-- The method `OperationRequest.Stream`. -/
def OperationRequest.Stream {σ Base Operation Transaction : Type}
    (Parse : GoString → Option GoError) (op : OperationRequest) (client : Client σ)
    (codec : Codec Base Operation Transaction) (handler : Operation → σ → σ) (s : σ) :
    σ × Option GoError :=
  match op.BuildUrl Parse with
  | (_, some err) => (s, errors.Wrap (some err) (go "Unable to build endpoint"))
  | (endpoint, none) =>
    client.stream (client.getHorizonURL ++ endpoint) (OperationRequest.onPayload codec handler) s

/-- The function literal that `TransactionRequest.StreamTransactions` passes to
`client.stream`: the per-payload callback. -/
def TransactionRequest.onPayload {σ Base Operation Transaction : Type}
    (codec : Codec Base Operation Transaction) (handler : Transaction → σ → σ)
    (data : GoString) (s : σ) : σ × Option GoError :=
  match codec.unmarshalTransaction data with
  | .error err => (s, errors.Wrap (some err) (go "Error unmarshaling data"))
  | .ok transaction => (handler transaction s, none)

/-- The method `TransactionRequest.StreamTransactions`. -/
def TransactionRequest.StreamTransactions {σ Base Operation Transaction : Type}
    (Parse : GoString → Option GoError) (tr : TransactionRequest) (client : Client σ)
    (codec : Codec Base Operation Transaction) (handler : Transaction → σ → σ) (s : σ) :
    σ × Option GoError :=
  match tr.BuildUrl Parse with
  | (_, some err) => (s, errors.Wrap (some err) (go "Unable to build endpoint"))
  | (endpoint, none) =>
    client.stream (client.getHorizonURL ++ endpoint) (TransactionRequest.onPayload codec handler)
      s

/-- Modelled from the spec: the request struct `submitRequest`, declared outside the
request files: the endpoint to post to and the transaction envelope in base64. -/
structure submitRequest where
  endpoint : GoString := []
  transactionXdr : GoString := []
deriving DecidableEq

/-- The method `submitRequest.BuildUrl`: the endpoint and the error. -/
def submitRequest.BuildUrl (sr : submitRequest) : GoString × Option GoError :=
  if sr.endpoint = [] ∨ sr.transactionXdr = [] then
    ([], some (errors.New (go "Invalid request. Too few parameters")))
  else
    let query : url.Values := []
    let query := url.Values.Set query (go "tx") sr.transactionXdr
    (sr.endpoint ++ go "?" ++ url.Values.Encode query, none)

/-- Plain percent-encoding, as the specification words the escaping of the transaction:
every byte that is not unreserved (a letter, a digit, `-`, `_`, `.` or `~`) is written
`%XX`, and nothing else is changed. -/
def percentEncode (s : GoString) : GoString :=
  s.flatMap fun c =>
    if url.isAlnum c || url.isMark c then [c]
    else [37, url.upperhex (c.toNat / 16), url.upperhex (c.toNat % 16)]

/-- Modelled from the spec: the initial HTTP response of a streaming call, which the
request files never see: its status code, and the payloads the event framer yields from
its body, in order. -/
structure Response where
  StatusCode : Nat
  payloads : List GoString

/-- Modelled from the spec: the delivery loop of the stream session, which is not in the
request files: each payload goes to the callback, in order; the first error stops the
session and is returned. -/
def deliver {σ : Type} (onPayload : GoString → σ → σ × Option GoError) :
    List GoString → σ → σ × Option GoError
  | [], s => (s, none)
  | data :: rest, s =>
    match onPayload data s with
    | (s', some err) => (s', some err)
    | (s', none) => deliver onPayload rest s'

/-- Modelled from the spec: the stream session `client.stream`, which is not in the
request files, on the response the service gives. A status outside 200..299 is fatal
and reported as `Got bad HTTP status code <code>`; on a 2xx response every payload of
the body is handed to the callback, and the exhausted body ends the session without
error. Cancellation is not part of this model. -/
def runSession {σ : Type} (resp : Response) (onPayload : GoString → σ → σ × Option GoError)
    (s : σ) : σ × Option GoError :=
  if resp.StatusCode < 200 ∨ resp.StatusCode ≥ 300 then
    (s, some ⟨go "Got bad HTTP status code " ++ strconv.Itoa resp.StatusCode⟩)
  else deliver onPayload resp.payloads s

/-- Modelled from the spec: a client whose stream session runs against the service
`http`, which answers the GET of a URL with a response. -/
def sessionClient {σ : Type} (horizonURL : GoString) (http : GoString → Response) : Client σ where
  getHorizonURL := horizonURL
  stream := fun url onPayload s => runSession (http url) onPayload s

/-! ## Stand-ins for the collaborators, to run the stream methods on concrete inputs -/

/-- A streaming session that delivers no payload and ends without error. -/
def idleClient : Client (List GoString) where
  getHorizonURL := go "https://localhost/"
  stream := fun _ _ s => (s, none)

/-- A streaming session that receives the single payload `frame` and hands it to the
callback. -/
def oneFrameClient (frame : GoString) : Client (List GoString) where
  getHorizonURL := go "https://localhost/"
  stream := fun _ onPayload s => onPayload frame s

/-- A small codec: the envelope of a payload is its first byte, an empty payload does
not decode; the dispatcher knows the type `c` only and returns the payload as the
record; a transaction is any payload that starts with the byte of an opening brace. -/
def sampleCodec : Codec GoString GoString GoString where
  unmarshalBase := fun data =>
    if data = [] then .error ⟨go "unexpected end of JSON input"⟩ else .ok (data.take 1)
  GetType := fun b => b
  UnmarshalOperation := fun t data =>
    if t = go "c" then .ok data else .error ⟨go "unknown operation type"⟩
  unmarshalTransaction := fun data =>
    if (go "\x7b").isPrefixOf data then .ok data
    else .error ⟨go "invalid character looking for beginning of value"⟩

/-- A streaming session that delivers no payload and notes the URL it was started on. -/
def urlRecordingClient : Client (List GoString) where
  getHorizonURL := go "https://localhost/"
  stream := fun url _ seen => (seen ++ [url], none)

/-- A handler that appends the record it receives to the list of records seen so far. -/
def recordingHandler (r : GoString) (seen : List GoString) : List GoString := seen ++ [r]

end horizonclient

/-! ## Tool `horizon-verify` -/

namespace horizonverify

/-- The decrement `count--` of a Go `uint` of 64 bits: it wraps around at zero. -/
def decrement (count : Nat) : Nat := (count + 2 ^ 64 - 1) % 2 ^ 64

/-- How a run of the command ends: it prints `Done` and returns, or it panics. In both
cases the number of ledgers whose check was completed before is recorded. -/
inductive Outcome
  | done (checked : Nat)
  | panicked (checked : Nat)
deriving DecidableEq

/-- The state after the records of one page: the run is over, or the outer loop goes
on with the remaining count. -/
inductive PageResult
  | over (o : Outcome)
  | next (count checked : Nat)
deriving DecidableEq

/-- The inner loop of `rootCmd.Run` over the records of one page. `check` is the body up
to the comparison of the counters: it tells whether the ledger passes (no panic). After
a ledger that passes, `count` is decremented and the run is done when it has become
zero. -/
def checkRecords {Ledger : Type} (check : Ledger → Bool) :
    List Ledger → Nat → Nat → PageResult
  | [], count, checked => .next count checked
  | ledger :: records, count, checked =>
    if check ledger then
      if decrement count = 0 then .over (.done (checked + 1))
      else checkRecords check records (decrement count) (checked + 1)
    else .over (.panicked checked)

/-- The outer loop of `rootCmd.Run` over the pages the service returns, one per request.
A page without records ends the run with `Done`; so does the end of the pages, after
which the service has no more records. -/
def mainLoop {Ledger : Type} (check : Ledger → Bool) :
    List (List Ledger) → Nat → Nat → Outcome
  | [], _, checked => .done checked
  | page :: pages, count, checked =>
    if page.length = 0 then .done checked
    else
      match checkRecords check page count checked with
      | .over o => o
      | .next count' checked' => mainLoop check pages count' checked'

/-- The number of ledgers available: the records of the pages before the first page
without records. -/
def available {Ledger : Type} : List (List Ledger) → Nat
  | [] => 0
  | page :: pages => if page.length = 0 then 0 else page.length + available pages

end horizonverify

/-! ## Properties of the request builders -/

open horizonclient

/-- With no paging field set, `addQueryParams` returns the empty string. -/
theorem addQueryParams_unset :
    addQueryParams [.cursor [], .limit 0, .order [], .includeFailed false] = [] := by
  decide

/-- Claim C1: an `OperationRequest` with two or more of `ForAccount`, `ForLedger`,
`forOperationId`, `ForTransaction` set makes `BuildUrl` return the empty endpoint and the
error `Invalid request. Too many parameters`, whatever the endpoint and the paging
fields are. -/
theorem operationRequest_buildUrl_too_many (Parse : GoString → Option GoError)
    (op : OperationRequest)
    (h : (op.ForAccount ≠ [] ∧ op.ForLedger > 0) ∨ (op.ForAccount ≠ [] ∧ op.forOperationId ≠ []) ∨
      (op.ForAccount ≠ [] ∧ op.ForTransaction ≠ []) ∨ (op.ForLedger > 0 ∧ op.forOperationId ≠ []) ∨
      (op.ForLedger > 0 ∧ op.ForTransaction ≠ []) ∨
      (op.forOperationId ≠ [] ∧ op.ForTransaction ≠ [])) :
    op.BuildUrl Parse = ([], some ⟨go "Invalid request. Too many parameters"⟩) := by
  have hn : 1 < countParams
      [.str op.ForAccount, .uint op.ForLedger, .str op.forOperationId, .str op.ForTransaction] := by
    simp only [countParams, List.foldl]
    rcases h with ⟨a, b⟩ | ⟨a, b⟩ | ⟨a, b⟩ | ⟨a, b⟩ | ⟨a, b⟩ | ⟨a, b⟩ <;> simp [a, b] <;>
      split_ifs <;> omega
  simp only [OperationRequest.BuildUrl, gt_iff_lt, hn, if_true, errors.New]

/-- Witness for C1: the request of the test, ledger 123 together with operation 789. -/
theorem operationRequest_buildUrl_too_many_witness :
    ((123 : Nat) > 0 ∧ go "789" ≠ []) ∧
    OperationRequest.BuildUrl (url.Parse fun _ _ => [])
        { ForLedger := 123, forOperationId := go "789", endpoint := go "operations" } =
      ([], some ⟨go "Invalid request. Too many parameters"⟩) :=
  ⟨by decide,
    operationRequest_buildUrl_too_many _ _
      (Or.inr (Or.inr (Or.inr (Or.inl ⟨by decide, by decide⟩))))⟩

/-- Claim C2: an `OperationRequest` with a non-empty endpoint `e`, no paging field and at
most one identifying field makes `BuildUrl` succeed with `e`, `accounts/<ForAccount>/e`,
`ledgers/<ForLedger>/e`, `transactions/<ForTransaction>/e` or
`operations/<forOperationId>` (whatever `e` is), provided `url.Parse` accepts the
assembled string. -/
theorem operationRequest_buildUrl_paths (Parse : GoString → Option GoError)
    (op : OperationRequest) (hE : op.endpoint ≠ [])
    (hC : op.Cursor = []) (hL : op.Limit = 0) (hO : op.Order = [])
    (hF : op.IncludeFailed = false) :
    (op.ForAccount = [] ∧ op.ForLedger = 0 ∧ op.forOperationId = [] ∧ op.ForTransaction = [] →
      Parse op.endpoint = none → op.BuildUrl Parse = (op.endpoint, none)) ∧
    (op.ForAccount ≠ [] ∧ op.ForLedger = 0 ∧ op.forOperationId = [] ∧ op.ForTransaction = [] →
      Parse (go "accounts/" ++ op.ForAccount ++ go "/" ++ op.endpoint) = none →
      op.BuildUrl Parse = (go "accounts/" ++ op.ForAccount ++ go "/" ++ op.endpoint, none)) ∧
    (op.ForAccount = [] ∧ op.ForLedger > 0 ∧ op.forOperationId = [] ∧ op.ForTransaction = [] →
      Parse (go "ledgers/" ++ strconv.Itoa op.ForLedger ++ go "/" ++ op.endpoint) = none →
      op.BuildUrl Parse =
        (go "ledgers/" ++ strconv.Itoa op.ForLedger ++ go "/" ++ op.endpoint, none)) ∧
    (op.ForAccount = [] ∧ op.ForLedger = 0 ∧ op.forOperationId = [] ∧ op.ForTransaction ≠ [] →
      Parse (go "transactions/" ++ op.ForTransaction ++ go "/" ++ op.endpoint) = none →
      op.BuildUrl Parse =
        (go "transactions/" ++ op.ForTransaction ++ go "/" ++ op.endpoint, none)) ∧
    (op.ForAccount = [] ∧ op.ForLedger = 0 ∧ op.forOperationId ≠ [] ∧ op.ForTransaction = [] →
      Parse (go "operations/" ++ op.forOperationId) = none →
      op.BuildUrl Parse = (go "operations/" ++ op.forOperationId, none)) := by
  refine ⟨?_, ?_, ?_, ?_, ?_⟩ <;> rintro ⟨hA, hLg, hId, hT⟩ hP <;>
    (try simp only [List.append_assoc] at hP) <;>
    simp [OperationRequest.BuildUrl, countParams, hE, hC, hL, hO, hF, hA, hLg, hId, hT, hP,
      addQueryParams_unset, errors.Wrap]

/-- Witness for C2: the ledger request of the test, `ledgers/123/operations`. -/
theorem operationRequest_buildUrl_paths_witness :
    (go "operations" ≠ [] ∧
      url.Parse (fun _ _ => []) (go "ledgers/" ++ strconv.Itoa 123 ++ go "/" ++ go "operations") =
        none) ∧
    OperationRequest.BuildUrl (url.Parse fun _ _ => [])
        { ForLedger := 123, endpoint := go "operations" } =
      (go "ledgers/123/operations", none) :=
  ⟨by decide,
    (operationRequest_buildUrl_paths (url.Parse fun _ _ => [])
      { ForLedger := 123, endpoint := go "operations" } (by decide) rfl rfl rfl rfl).2.2.1
      ⟨rfl, by decide, rfl, rfl⟩ (by decide)⟩

/-- Claim C3: a `TransactionRequest` with two or more of `ForAccount`, `ForLedger`,
`forTransactionHash` set makes `BuildUrl` return the empty endpoint and the error
`Invalid request. Too many parameters`, whatever the paging fields are. -/
theorem transactionRequest_buildUrl_too_many (Parse : GoString → Option GoError)
    (tr : TransactionRequest)
    (h : (tr.ForAccount ≠ [] ∧ tr.ForLedger > 0) ∨ (tr.ForAccount ≠ [] ∧ tr.forTransactionHash ≠ []) ∨
      (tr.ForLedger > 0 ∧ tr.forTransactionHash ≠ [])) :
    tr.BuildUrl Parse = ([], some ⟨go "Invalid request. Too many parameters"⟩) := by
  have hn : 1 < countParams
      [.str tr.ForAccount, .uint tr.ForLedger, .str tr.forTransactionHash] := by
    simp only [countParams, List.foldl]
    rcases h with ⟨a, b⟩ | ⟨a, b⟩ | ⟨a, b⟩ <;> simp [a, b] <;> split_ifs <;> omega
  simp only [TransactionRequest.BuildUrl, gt_iff_lt, hn, if_true, errors.New]

/-- Witness for C3: an account together with a transaction hash, and a cursor. -/
theorem transactionRequest_buildUrl_too_many_witness :
    (go "GABC" ≠ [] ∧ go "5ad1" ≠ []) ∧
    TransactionRequest.BuildUrl (url.Parse fun _ _ => [])
        { ForAccount := go "GABC", forTransactionHash := go "5ad1", Cursor := go "now" } =
      ([], some ⟨go "Invalid request. Too many parameters"⟩) :=
  ⟨by decide,
    transactionRequest_buildUrl_too_many _ _ (Or.inr (Or.inl ⟨by decide, by decide⟩))⟩

/-- Claim C4: a `TransactionRequest` with no paging field and at most one identifying
field makes `BuildUrl` succeed with `transactions`, `accounts/<ForAccount>/transactions`,
`ledgers/<ForLedger>/transactions` or `transactions/<forTransactionHash>`, provided
`url.Parse` accepts the assembled string. -/
theorem transactionRequest_buildUrl_paths (Parse : GoString → Option GoError)
    (tr : TransactionRequest)
    (hC : tr.Cursor = []) (hL : tr.Limit = 0) (hO : tr.Order = [])
    (hF : tr.IncludeFailed = false) :
    (tr.ForAccount = [] ∧ tr.ForLedger = 0 ∧ tr.forTransactionHash = [] →
      Parse (go "transactions") = none → tr.BuildUrl Parse = (go "transactions", none)) ∧
    (tr.ForAccount ≠ [] ∧ tr.ForLedger = 0 ∧ tr.forTransactionHash = [] →
      Parse (go "accounts/" ++ tr.ForAccount ++ go "/transactions") = none →
      tr.BuildUrl Parse = (go "accounts/" ++ tr.ForAccount ++ go "/transactions", none)) ∧
    (tr.ForAccount = [] ∧ tr.ForLedger > 0 ∧ tr.forTransactionHash = [] →
      Parse (go "ledgers/" ++ strconv.Itoa tr.ForLedger ++ go "/transactions") = none →
      tr.BuildUrl Parse =
        (go "ledgers/" ++ strconv.Itoa tr.ForLedger ++ go "/transactions", none)) ∧
    (tr.ForAccount = [] ∧ tr.ForLedger = 0 ∧ tr.forTransactionHash ≠ [] →
      Parse (go "transactions/" ++ tr.forTransactionHash) = none →
      tr.BuildUrl Parse = (go "transactions/" ++ tr.forTransactionHash, none)) := by
  refine ⟨?_, ?_, ?_, ?_⟩ <;> rintro ⟨hA, hLg, hH⟩ hP <;>
    (try simp only [List.append_assoc] at hP) <;>
    simp [TransactionRequest.BuildUrl, countParams, hC, hL, hO, hF, hA, hLg, hH, hP,
      addQueryParams_unset, errors.Wrap]

/-- Witness for C4: the transactions of one account. -/
theorem transactionRequest_buildUrl_paths_witness :
    (go "GABC" ≠ [] ∧
      url.Parse (fun _ _ => []) (go "accounts/" ++ go "GABC" ++ go "/transactions") = none) ∧
    TransactionRequest.BuildUrl (url.Parse fun _ _ => []) { ForAccount := go "GABC" } =
      (go "accounts/GABC/transactions", none) :=
  ⟨by decide,
    (transactionRequest_buildUrl_paths (url.Parse fun _ _ => []) { ForAccount := go "GABC" }
      rfl rfl rfl rfl).2.1 ⟨by decide, rfl, rfl⟩ (by decide)⟩

/-! ## Facts about the library functions -/

/-- A byte that is not in `s` is never found by `strings.Index`. -/
theorem index_byte_none (b : UInt8) (s : GoString) (h : ∀ x ∈ s, x ≠ b) :
    strings.Index s [b] = none := by
  induction s with
  | nil => simp [strings.Index, List.isPrefixOf]
  | cons c t ih =>
    have hc : c ≠ b := h c (List.mem_cons_self _ _)
    have ht : ∀ x ∈ t, x ≠ b := fun x hx => h x (List.mem_cons_of_mem _ hx)
    simp [strings.Index, List.isPrefixOf, ih ht, Ne.symm hc]

/-- The digits pushed by `formatDigits` are decimal digits. -/
theorem formatDigits_digits (fuel n : Nat) (acc : GoString)
    (hacc : ∀ b ∈ acc, 48 ≤ b.toNat ∧ b.toNat ≤ 57) :
    ∀ b ∈ strconv.formatDigits fuel n acc, 48 ≤ b.toNat ∧ b.toNat ≤ 57 := by
  induction fuel generalizing n acc with
  | zero => simpa [strconv.formatDigits] using hacc
  | succ k ih =>
    have hd : (UInt8.ofNat (48 + n % 10)).toNat = 48 + n % 10 :=
      UInt8.toNat_ofNat_of_lt (by simp [UInt8.size]; omega)
    have hacc' : ∀ b ∈ UInt8.ofNat (48 + n % 10) :: acc, 48 ≤ b.toNat ∧ b.toNat ≤ 57 := by
      intro b hb
      rcases List.mem_cons.1 hb with rfl | hb
      · rw [hd]; omega
      · exact hacc b hb
    unfold strconv.formatDigits
    split_ifs
    · exact hacc'
    · exact ih _ _ hacc'

/-- The text of `strconv.Itoa` is made of decimal digits. -/
theorem itoa_digits (n : Nat) : ∀ b ∈ strconv.Itoa n, 48 ≤ b.toNat ∧ b.toNat ≤ 57 :=
  formatDigits_digits _ _ [] (by simp)

/-- Escaping keeps a string made of unreserved bytes (letters, digits, `-`, `_`, `.`,
`~`) as it is. -/
theorem queryEscape_unreserved (s : GoString)
    (h : ∀ b ∈ s, url.isAlnum b = true ∨ url.isMark b = true) : url.QueryEscape s = s := by
  induction s with
  | nil => rfl
  | cons c t ih =>
    have hc := h c (List.mem_cons_self _ _)
    have ht := ih fun b hb => h b (List.mem_cons_of_mem _ hb)
    have hsp : c.toNat ≠ 32 := by
      rcases hc with hc | hc <;> simp [url.isAlnum, url.isMark] at hc <;> omega
    have hesc : url.shouldEscape c .encodeQueryComponent = false := by
      rcases hc with hc | hc <;> simp [url.shouldEscape, hc]
    have hcons : url.QueryEscape (c :: t) =
        (if c.toNat = 32 && url.encoding.encodeQueryComponent = .encodeQueryComponent then [43]
          else if url.shouldEscape c .encodeQueryComponent then
            [37, url.upperhex (c.toNat / 16), url.upperhex (c.toNat % 16)]
          else [c]) ++ url.QueryEscape t := by
      simp [url.QueryEscape, url.escape]
    rw [hcons, ht]
    simp [hsp, hesc]

/-- The bytes `url.QueryEscape` writes: letters, digits, `-`, `_`, `.`, `~`, `+` and `%`.
None is a control byte and none is `#`. -/
theorem queryEscape_bytes (s : GoString) :
    ∀ b ∈ url.QueryEscape s, 32 ≤ b.toNat ∧ b.toNat ≠ 127 ∧ b.toNat ≠ 35 ∧ b.toNat ≠ 63 := by
  intro b hb
  simp only [url.QueryEscape, url.escape, List.mem_flatMap] at hb
  obtain ⟨c, -, hb⟩ := hb
  have hup : ∀ n, n < 16 → (url.upperhex n).toNat = if n < 10 then 48 + n else 55 + n := by
    intro n hn
    unfold url.upperhex
    split_ifs <;> exact UInt8.toNat_ofNat_of_lt (by simp [UInt8.size]; omega)
  have hlt : c.toNat < 256 := c.toNat_lt
  split_ifs at hb with h1 h2
  · simp at hb; subst hb; decide
  · simp at hb
    rcases hb with rfl | rfl | rfl
    · decide
    · rw [hup _ (by omega)]; split_ifs <;> omega
    · rw [hup _ (by omega)]; split_ifs <;> omega
  · simp at hb; subst hb
    have h3 : url.isAlnum b = true ∨ url.isMark b = true := by
      by_contra hne
      simp only [not_or, Bool.not_eq_true] at hne
      apply h2
      simp only [url.shouldEscape, hne.1, hne.2]
      cases url.isReserved b <;> simp
    rcases h3 with h3 | h3 <;> simp [url.isAlnum, url.isMark] at h3 <;> omega

theorem go_cursor : go "cursor" = [99, 117, 114, 115, 111, 114] := by decide
theorem go_limit : go "limit" = [108, 105, 109, 105, 116] := by decide
theorem go_order : go "order" = [111, 114, 100, 101, 114] := by decide
theorem go_include_failed :
    go "include_failed" = [105, 110, 99, 108, 117, 100, 101, 95, 102, 97, 105, 108, 101, 100] := by
  decide

theorem addQueryParams_eq (c : GoString) (n : Nat) (o : GoString) (b : Bool) :
    addQueryParams [.cursor c, .limit n, .order o, .includeFailed b] =
      List.intercalate (go "&")
        ((if c = [] then [] else [go "cursor=" ++ url.QueryEscape c]) ++
          (if b then [go "include_failed=true"] else []) ++
          (if n = 0 then [] else [go "limit=" ++ url.QueryEscape (strconv.Itoa n)]) ++
          (if o = [] then [] else [go "order=" ++ url.QueryEscape o])) := by
  have k1 : url.QueryEscape (go "cursor") = go "cursor" := by decide
  have k2 : url.QueryEscape (go "limit") = go "limit" := by decide
  have k3 : url.QueryEscape (go "order") = go "order" := by decide
  have k4 : url.QueryEscape (go "include_failed") = go "include_failed" := by decide
  have k5 : url.QueryEscape (go "true") = go "true" := by decide
  have a1 : go "cursor=" = go "cursor" ++ [61] := by decide
  have a2 : go "limit=" = go "limit" ++ [61] := by decide
  have a3 : go "order=" = go "order" ++ [61] := by decide
  have a4 : go "include_failed=true" = go "include_failed" ++ [61] ++ go "true" := by decide
  have a5 : go "&" = [38] := by decide
  simp only [go_cursor, go_limit, go_order, go_include_failed] at k1 k2 k3 k4
  by_cases hc : c = [] <;> by_cases hn : n = 0 <;> by_cases ho : o = [] <;> cases b <;>
    simp [addQueryParams, url.Values.Add, url.Values.Encode, url.sortStrings, url.insertSorted,
      url.encodeKey, url.Values.lookup, hc, hn, ho, a1, a2, a3, a4, a5, k1, k2, k3, k4, k5,
      List.intercalate, List.intersperse, go_cursor, go_limit, go_order, go_include_failed,
      url.stringLE, UInt8.size]

/-- The bytes of a query string built by `addQueryParams`: no control byte, no `#`. -/
theorem addQueryParams_bytes (c : GoString) (n : Nat) (o : GoString) (f : Bool) :
    ∀ b ∈ addQueryParams [.cursor c, .limit n, .order o, .includeFailed f],
      32 ≤ b.toNat ∧ b.toNat ≠ 127 ∧ b.toNat ≠ 35 := by
  have q := fun s b hb => (queryEscape_bytes s b hb).1
  have q2 := fun s b hb => (queryEscape_bytes s b hb).2.1
  have q3 := fun s b hb => (queryEscape_bytes s b hb).2.2.1
  have l1 : ∀ b ∈ go "cursor=", 32 ≤ b.toNat ∧ b.toNat ≠ 127 ∧ b.toNat ≠ 35 := by decide
  have l2 : ∀ b ∈ go "limit=", 32 ≤ b.toNat ∧ b.toNat ≠ 127 ∧ b.toNat ≠ 35 := by decide
  have l3 : ∀ b ∈ go "order=", 32 ≤ b.toNat ∧ b.toNat ≠ 127 ∧ b.toNat ≠ 35 := by decide
  have l4 : ∀ b ∈ go "include_failed=true", 32 ≤ b.toNat ∧ b.toNat ≠ 127 ∧ b.toNat ≠ 35 := by
    decide
  have l5 : go "&" = [38] := by decide
  have e := fun s b hb => (⟨q s b hb, q2 s b hb, q3 s b hb⟩ :
    32 ≤ b.toNat ∧ b.toNat ≠ 127 ∧ b.toNat ≠ 35)
  rw [addQueryParams_eq]
  by_cases hc : c = [] <;> by_cases hn : n = 0 <;> by_cases ho : o = [] <;> cases f <;>
    simp only [hc, hn, ho, if_true, if_false, List.intercalate, List.intersperse, List.append_nil,
      List.nil_append, List.flatten, List.singleton_append, List.forall_mem_append,
      List.forall_mem_cons, l5, Bool.false_eq_true] <;>
    (try simp only [List.not_mem_nil, false_imp_iff, implies_true]) <;>
    repeat' apply And.intro
  all_goals first | exact l1 | exact l2 | exact l3 | exact l4 | exact e _ | decide

/-- The checks of `url.Parse` on a string without `#`, without control bytes and
without scheme, whose path `path` (the part before the first `?`) has no colon, does not
start with `//` and has well-formed escapes: it is accepted. -/
theorem parseFailed_of_parts (s path q : GoString)
    (hidx : strings.Index s (go "#") = none)
    (hctl : url.stringContainsCTLByte s = false)
    (hstar : s ≠ go "*")
    (hsch : url.getscheme s = .ok ([], s))
    (hq : url.split s (go "?") true = (path, q))
    (hpath : url.unescapeError .encodePath path = none)
    (hcolon : strings.Index path (go ":") = none)
    (hs2 : (go "//").isPrefixOf path = false) :
    url.ParseFailed s = none := by
  have hsplit : url.split s (go "#") true = (s, []) := by
    simp only [url.split, hidx]
  simp only [url.ParseFailed, hsplit, url.parseError, hctl, hstar, hsch, hq, hpath, hcolon, hs2]
  simp

/-- The endpoints `operations` and `payments` followed by `?` and a query string without
control byte and without `#` are accepted by `url.Parse`. -/
theorem parse_endpoint_query (describe : GoString → url.ParseFailure → GoString)
    (e q : GoString) (he : e = go "operations" ∨ e = go "payments")
    (hq : ∀ b ∈ q, 32 ≤ b.toNat ∧ b.toNat ≠ 127 ∧ b.toNat ≠ 35) :
    url.Parse describe (e ++ go "?" ++ q) = none := by
  have e1 : go "operations" = [111, 112, 101, 114, 97, 116, 105, 111, 110, 115] := by decide
  have e1' : go "payments" = [112, 97, 121, 109, 101, 110, 116, 115] := by decide
  have e2 : go "?" = [63] := by decide
  have e3 : go "#" = [35] := by decide
  have e4 : go "*" = [42] := by decide
  have hctl : url.stringContainsCTLByte q = false := by
    simp only [url.stringContainsCTLByte, List.any_eq_false]
    intro b hb
    have := hq b hb
    simp; omega
  have hfrag : ∀ x ∈ q, x ≠ 35 := by
    intro x hx hx35
    have := (hq x hx).2.2
    rw [hx35] at this
    exact this (by decide)
  have hmain : url.ParseFailed (e ++ go "?" ++ q) = none := by
    rcases he with rfl | rfl
    · apply parseFailed_of_parts _ (go "operations") q
      · rw [e3]; apply index_byte_none
        intro x hx
        simp only [List.mem_append] at hx
        rcases hx with (hx | hx) | hx
        · rw [e1] at hx; revert x; decide
        · rw [e2] at hx; revert x; decide
        · exact hfrag x hx
      · simp only [url.stringContainsCTLByte, List.any_append, Bool.or_eq_false_iff] at hctl ⊢
        exact ⟨⟨by decide, by decide⟩, hctl⟩
      · rw [e1, e4]; simp
      · rw [e1, e2]; simp [url.getscheme, url.getschemeFrom, UInt8.size]
      · rw [e1, e2]; simp [url.split, strings.Index, List.isPrefixOf]
      · decide
      · decide
      · decide
    · apply parseFailed_of_parts _ (go "payments") q
      · rw [e3]; apply index_byte_none
        intro x hx
        simp only [List.mem_append] at hx
        rcases hx with (hx | hx) | hx
        · rw [e1'] at hx; revert x; decide
        · rw [e2] at hx; revert x; decide
        · exact hfrag x hx
      · simp only [url.stringContainsCTLByte, List.any_append, Bool.or_eq_false_iff] at hctl ⊢
        exact ⟨⟨by decide, by decide⟩, hctl⟩
      · rw [e1', e4]; simp
      · rw [e1', e2]; simp [url.getscheme, url.getschemeFrom, UInt8.size]
      · rw [e1', e2]; simp [url.split, strings.Index, List.isPrefixOf]
      · decide
      · decide
      · decide
  rw [url.Parse, hmain]; rfl

/-- Claim C5: with no identifying field, the endpoint `operations` or `payments`, a
non-empty cursor `c` of unreserved bytes, a positive limit `n`, the order `asc` and no
`IncludeFailed`, `BuildUrl` succeeds with `e?cursor=c&limit=n&order=asc`; with every
paging field unset it succeeds with the bare path `e`, which holds no `?`. -/
theorem operationRequest_buildUrl_paging (describe : GoString → url.ParseFailure → GoString)
    (op : OperationRequest)
    (hId : op.ForAccount = [] ∧ op.ForLedger = 0 ∧ op.forOperationId = [] ∧
      op.ForTransaction = [])
    (hE : op.endpoint = go "operations" ∨ op.endpoint = go "payments") :
    (op.Cursor ≠ [] → (∀ b ∈ op.Cursor, url.isAlnum b = true ∨ url.isMark b = true) →
      0 < op.Limit → op.Order = OrderAsc → op.IncludeFailed = false →
      op.BuildUrl (url.Parse describe) =
        (op.endpoint ++ go "?cursor=" ++ op.Cursor ++ go "&limit=" ++ strconv.Itoa op.Limit ++
          go "&order=asc", none)) ∧
    (op.Cursor = [] → op.Limit = 0 → op.Order = [] → op.IncludeFailed = false →
      op.BuildUrl (url.Parse describe) = (op.endpoint, none) ∧
        ∀ b ∈ (op.BuildUrl (url.Parse describe)).1, b ≠ 63) := by
  obtain ⟨hA, hLg, hO, hT⟩ := hId
  have hne : op.endpoint ≠ [] := by
    rcases hE with h | h <;> rw [h] <;> decide
  constructor
  · intro hc hunres hlim hord hf
    have hq := addQueryParams_eq op.Cursor op.Limit OrderAsc false
    have hl0 : op.Limit ≠ 0 := by omega
    have hasc : url.QueryEscape OrderAsc = go "asc" := by decide
    have hasc' : OrderAsc ≠ [] := by decide
    have hdig : url.QueryEscape (strconv.Itoa op.Limit) = strconv.Itoa op.Limit := by
      apply queryEscape_unreserved
      intro b hb
      have := itoa_digits _ b hb
      left
      simp [url.isAlnum]; omega
    simp only [hc, hl0, if_false, hasc, hasc', hdig, queryEscape_unreserved _ hunres,
      List.intercalate, List.intersperse, Bool.false_eq_true] at hq
    have hbytes := addQueryParams_bytes op.Cursor op.Limit OrderAsc false
    have hparse := parse_endpoint_query describe op.endpoint _ hE hbytes
    have hqne : addQueryParams
        [.cursor op.Cursor, .limit op.Limit, .order OrderAsc, .includeFailed false] ≠ [] := by
      rw [hq]; simp [hc]
    simp only [OperationRequest.BuildUrl, countParams, List.foldl, hA, hLg, hO, hT, hne, hord, hf]
    simp only [ne_eq, not_true_eq_false, if_false, gt_iff_lt, Nat.lt_irrefl, hqne, not_false_eq_true,
      if_true, hparse, errors.Wrap]
    rw [hq]
    have g1 : go "?cursor=" = go "?" ++ go "cursor=" := by decide
    have g2 : go "&limit=" = go "&" ++ go "limit=" := by decide
    have g3 : go "&order=asc" = go "&" ++ (go "order=" ++ go "asc") := by decide
    simp [g1, g2, g3]
  · intro hc hl ho hf
    have hP : url.Parse describe op.endpoint = none := by
      rcases hE with h | h <;> rw [h, url.Parse] <;>
        exact congrArg (Option.map _) (by decide : url.ParseFailed _ = none)
    have hB : op.BuildUrl (url.Parse describe) = (op.endpoint, none) := by
      simp [OperationRequest.BuildUrl, countParams, hA, hLg, hO, hT, hne, hc, hl, ho, hf,
        addQueryParams_unset, hP, errors.Wrap]
    refine ⟨hB, ?_⟩
    rw [hB]
    rcases hE with h | h <;> rw [h] <;> decide

/-- Witness for C5: the paged request of the test, cursor 123456, limit 30, ascending. -/
theorem operationRequest_buildUrl_paging_witness :
    ((go "123456" ≠ [] ∧ (∀ b ∈ go "123456", url.isAlnum b = true ∨ url.isMark b = true) ∧
      0 < 30 ∧ OrderAsc = OrderAsc) ∧
    OperationRequest.BuildUrl (url.Parse fun _ _ => [])
        { Cursor := go "123456", Limit := 30, Order := OrderAsc, endpoint := go "operations" } =
      (go "operations" ++ go "?cursor=" ++ go "123456" ++ go "&limit=" ++ strconv.Itoa 30 ++
        go "&order=asc", none)) ∧
    go "operations" ++ go "?cursor=" ++ go "123456" ++ go "&limit=" ++ strconv.Itoa 30 ++
        go "&order=asc" = go "operations?cursor=123456&limit=30&order=asc" :=
  ⟨⟨⟨by decide, by decide, by decide, rfl⟩,
    (operationRequest_buildUrl_paging (fun _ _ => [])
      { Cursor := go "123456", Limit := 30, Order := OrderAsc, endpoint := go "operations" }
      ⟨rfl, rfl, rfl, rfl⟩ (Or.inl rfl)).1 (by decide) (by decide) (by decide) rfl rfl⟩,
    by decide⟩

/-- With a non-empty cursor the query string of `addQueryParams` starts with the
`cursor` parameter. -/
theorem addQueryParams_cursor_first (c : GoString) (n : Nat) (o : GoString) (f : Bool)
    (hc : c ≠ []) :
    ∃ rest, addQueryParams [.cursor c, .limit n, .order o, .includeFailed f] =
      go "cursor=" ++ url.QueryEscape c ++ rest := by
  rw [addQueryParams_eq]
  by_cases hn : n = 0 <;> by_cases ho : o = [] <;> cases f <;>
    simp only [hc, hn, ho, if_true, if_false, List.intercalate, List.intersperse, List.append_nil,
      List.nil_append, List.flatten, List.singleton_append, List.cons_append, Bool.false_eq_true,
      List.append_assoc] <;>
    first | exact ⟨_, rfl⟩ | exact ⟨[], by simp⟩

/-- The endpoint a successful `OperationRequest.BuildUrl` returns: a path, followed by
`?` and the query string when there is one. -/
theorem operationRequest_buildUrl_shape (Parse : GoString → Option GoError)
    (op : OperationRequest) (ep : GoString) (h : op.BuildUrl Parse = (ep, none)) :
    ∃ path, ep =
      if addQueryParams [.cursor op.Cursor, .limit op.Limit, .order op.Order,
          .includeFailed op.IncludeFailed] ≠ [] then
        path ++ go "?" ++ addQueryParams [.cursor op.Cursor, .limit op.Limit, .order op.Order,
          .includeFailed op.IncludeFailed]
      else path := by
  unfold OperationRequest.BuildUrl at h
  by_cases h1 : countParams [.str op.ForAccount, .uint op.ForLedger, .str op.forOperationId,
      .str op.ForTransaction] > 1
  · simp [h1] at h
  · by_cases h2 : op.endpoint = []
    · simp [h1, h2] at h
    · simp only [h1, h2, if_false] at h
      exact ⟨_, (Prod.mk.inj h).1.symm⟩

/-- The endpoint a successful `TransactionRequest.BuildUrl` returns: a path, followed by
`?` and the query string when there is one. -/
theorem transactionRequest_buildUrl_shape (Parse : GoString → Option GoError)
    (tr : TransactionRequest) (ep : GoString) (h : tr.BuildUrl Parse = (ep, none)) :
    ∃ path, ep =
      if addQueryParams [.cursor tr.Cursor, .limit tr.Limit, .order tr.Order,
          .includeFailed tr.IncludeFailed] ≠ [] then
        path ++ go "?" ++ addQueryParams [.cursor tr.Cursor, .limit tr.Limit, .order tr.Order,
          .includeFailed tr.IncludeFailed]
      else path := by
  unfold TransactionRequest.BuildUrl at h
  by_cases h1 : countParams [.str tr.ForAccount, .uint tr.ForLedger, .str tr.forTransactionHash] > 1
  · simp [h1] at h
  · simp only [h1, if_false] at h
    exact ⟨_, (Prod.mk.inj h).1.symm⟩

/-- Counterexample to C6: the operations request and the transactions request without
paging fields build `operations` and `transactions`, endpoints without any `?`, hence
without a `cursor` parameter; `Stream` and `StreamTransactions` start the session on the
base URL followed by these endpoints, a URL without any `?`. -/
theorem buildUrl_without_cursor :
    (OperationRequest.BuildUrl (url.Parse fun _ _ => []) { endpoint := go "operations" } =
        (go "operations", none) ∧ ∀ b ∈ go "operations", b ≠ 63) ∧
    (TransactionRequest.BuildUrl (url.Parse fun _ _ => []) {} = (go "transactions", none) ∧
      ∀ b ∈ go "transactions", b ≠ 63) ∧
    (OperationRequest.Stream (url.Parse fun _ _ => []) { endpoint := go "operations" }
        urlRecordingClient sampleCodec recordingHandler [] =
      ([go "https://localhost/operations"], none) ∧
      ∀ b ∈ go "https://localhost/operations", b ≠ 63) ∧
    (TransactionRequest.StreamTransactions (url.Parse fun _ _ => []) {}
        urlRecordingClient sampleCodec recordingHandler [] =
      ([go "https://localhost/transactions"], none) ∧
      ∀ b ∈ go "https://localhost/transactions", b ≠ 63) := by
  decide

/-- Claim C6, amended: when the `Cursor` field is not empty, the endpoint a successful
`BuildUrl` returns, for an `OperationRequest` as for a `TransactionRequest`, holds
`?cursor=` followed by the escaped cursor, and `Stream` / `StreamTransactions` start the
session of the client, whatever it is, on the base URL of the client followed by that
endpoint, with the callback of the request. -/
theorem buildUrl_cursor_when_set {σ Base Operation Transaction : Type}
    (Parse : GoString → Option GoError) (client : Client σ)
    (codec : Codec Base Operation Transaction) (s : σ) :
    (∀ (op : OperationRequest) (ep : GoString), op.Cursor ≠ [] →
      op.BuildUrl Parse = (ep, none) →
      ∃ path rest, ep = path ++ go "?cursor=" ++ url.QueryEscape op.Cursor ++ rest ∧
        ∀ handler : Operation → σ → σ,
          op.Stream Parse client codec handler s =
            client.stream
              (client.getHorizonURL ++
                (path ++ go "?cursor=" ++ url.QueryEscape op.Cursor ++ rest))
              (OperationRequest.onPayload codec handler) s) ∧
    (∀ (tr : TransactionRequest) (ep : GoString), tr.Cursor ≠ [] →
      tr.BuildUrl Parse = (ep, none) →
      ∃ path rest, ep = path ++ go "?cursor=" ++ url.QueryEscape tr.Cursor ++ rest ∧
        ∀ handler : Transaction → σ → σ,
          tr.StreamTransactions Parse client codec handler s =
            client.stream
              (client.getHorizonURL ++
                (path ++ go "?cursor=" ++ url.QueryEscape tr.Cursor ++ rest))
              (TransactionRequest.onPayload codec handler) s) := by
  have g1 : go "?cursor=" = go "?" ++ go "cursor=" := by decide
  constructor
  · intro op ep hc h
    obtain ⟨path, hp⟩ := operationRequest_buildUrl_shape Parse op ep h
    obtain ⟨rest, hr⟩ := addQueryParams_cursor_first op.Cursor op.Limit op.Order op.IncludeFailed hc
    have hqne : go "cursor=" ++ url.QueryEscape op.Cursor ++ rest ≠ [] := by
      have : go "cursor=" ≠ [] := by decide
      simp [this]
    have hep : ep = path ++ go "?cursor=" ++ url.QueryEscape op.Cursor ++ rest := by
      rw [hp, hr, if_pos hqne, g1]
      simp
    refine ⟨path, rest, hep, ?_⟩
    intro handler
    rw [← hep]
    simp only [OperationRequest.Stream, h]
  · intro tr ep hc h
    obtain ⟨path, hp⟩ := transactionRequest_buildUrl_shape Parse tr ep h
    obtain ⟨rest, hr⟩ := addQueryParams_cursor_first tr.Cursor tr.Limit tr.Order tr.IncludeFailed hc
    have hqne : go "cursor=" ++ url.QueryEscape tr.Cursor ++ rest ≠ [] := by
      have : go "cursor=" ≠ [] := by decide
      simp [this]
    have hep : ep = path ++ go "?cursor=" ++ url.QueryEscape tr.Cursor ++ rest := by
      rw [hp, hr, if_pos hqne, g1]
      simp
    refine ⟨path, rest, hep, ?_⟩
    intro handler
    rw [← hep]
    simp only [TransactionRequest.StreamTransactions, h]

/-- Witness for C6, amended: the operations request with the cursor `now`, streamed on a
session that notes its URL: the session is started on
`https://localhost/operations?cursor=now`. -/
theorem buildUrl_cursor_when_set_witness :
    (go "now" ≠ [] ∧
      OperationRequest.BuildUrl (url.Parse fun _ _ => [])
          { Cursor := go "now", endpoint := go "operations" } =
        (go "operations?cursor=now", none)) ∧
    OperationRequest.Stream (url.Parse fun _ _ => [])
        { Cursor := go "now", endpoint := go "operations" }
        urlRecordingClient sampleCodec recordingHandler [] =
      ([go "https://localhost/operations?cursor=now"], none) := by
  refine ⟨by decide, ?_⟩
  obtain ⟨path, rest, hep, hS⟩ :=
    (buildUrl_cursor_when_set (url.Parse fun _ _ => []) urlRecordingClient sampleCodec []).1
      { Cursor := go "now", endpoint := go "operations" } (go "operations?cursor=now")
      (by decide) (by decide)
  rw [hS recordingHandler, ← hep]
  decide

/-! ## Properties of the stream methods -/

/-- Counterexample to C7: a request whose endpoint was never set, with an account and a
ledger, makes `Stream` report too many parameters, not the missing endpoint. -/
theorem stream_unset_endpoint_too_many :
    OperationRequest.Stream (url.Parse fun _ _ => [])
        { ForAccount := go "GABC", ForLedger := 7 } idleClient sampleCodec recordingHandler [] =
      ([], some ⟨go "Unable to build endpoint: Invalid request. Too many parameters"⟩) ∧
    (⟨go "Unable to build endpoint: Invalid request. Too many parameters"⟩ : GoError) ≠
      ⟨go "Unable to build endpoint: Internal error, endpoint not set"⟩ := by
  decide

/-- Claim C7, amended: when `BuildUrl` fails with message `m`, `Stream` returns the error
`Unable to build endpoint: m` and leaves the state as it was, whatever the streaming
session and the handler are: neither is invoked. A request whose endpoint was never set
and which has at most one identifying field yields
`Unable to build endpoint: Internal error, endpoint not set`. -/
theorem operationRequest_stream_build_error {σ Base Operation Transaction : Type}
    (Parse : GoString → Option GoError) (op : OperationRequest) (client : Client σ)
    (codec : Codec Base Operation Transaction) (handler : Operation → σ → σ) (s : σ) :
    (∀ (ep : GoString) (err : GoError), op.BuildUrl Parse = (ep, some err) →
      op.Stream Parse client codec handler s =
        (s, some ⟨go "Unable to build endpoint: " ++ err.Error⟩)) ∧
    (op.endpoint = [] →
      ((op.ForAccount = [] ∧ op.ForLedger = 0 ∧ op.forOperationId = []) ∨
        (op.ForAccount = [] ∧ op.ForLedger = 0 ∧ op.ForTransaction = []) ∨
        (op.ForAccount = [] ∧ op.forOperationId = [] ∧ op.ForTransaction = []) ∨
        (op.ForLedger = 0 ∧ op.forOperationId = [] ∧ op.ForTransaction = [])) →
      op.Stream Parse client codec handler s =
        (s, some ⟨go "Unable to build endpoint: Internal error, endpoint not set"⟩)) := by
  have g : go "Unable to build endpoint: " = go "Unable to build endpoint" ++ go ": " := by
    decide
  have g2 : go "Unable to build endpoint: Internal error, endpoint not set" =
      go "Unable to build endpoint" ++ go ": " ++ go "Internal error, endpoint not set" := by
    decide
  constructor
  · intro ep err h
    simp only [OperationRequest.Stream, h, errors.Wrap, g]
  · intro hE hId
    have hn : ¬ countParams [.str op.ForAccount, .uint op.ForLedger, .str op.forOperationId,
        .str op.ForTransaction] > 1 := by
      simp only [countParams, List.foldl]
      rcases hId with ⟨a, b, c⟩ | ⟨a, b, c⟩ | ⟨a, b, c⟩ | ⟨a, b, c⟩ <;> simp [a, b, c] <;>
        split_ifs <;> omega
    have hB : op.BuildUrl Parse = ([], some ⟨go "Internal error, endpoint not set"⟩) := by
      simp only [OperationRequest.BuildUrl, hn, hE, if_true, if_false, errors.New]
    simp only [OperationRequest.Stream, hB, errors.Wrap, g2]

/-- Witness for C7, amended: the zero request of the test, whose endpoint was never set,
on a session that would deliver a frame. -/
theorem operationRequest_stream_build_error_witness :
    (({} : OperationRequest).endpoint = [] ∧
      ({} : OperationRequest).ForAccount = [] ∧ ({} : OperationRequest).ForLedger = 0) ∧
    OperationRequest.Stream (url.Parse fun _ _ => []) {} (oneFrameClient (go "c1"))
        sampleCodec recordingHandler [] =
      ([], some ⟨go "Unable to build endpoint: Internal error, endpoint not set"⟩) :=
  ⟨by decide,
    (operationRequest_stream_build_error (url.Parse fun _ _ => []) {}
      (oneFrameClient (go "c1")) sampleCodec recordingHandler []).2 rfl
      (Or.inl ⟨rfl, rfl, rfl⟩)⟩

/-- Claim C8: in the callback of `OperationRequest.Stream`, a payload whose envelope does
not decode returns that error wrapped with `Error unmarshaling data`; a payload whose
envelope decodes but which the dispatcher rejects returns that error wrapped with
`Unmarshaling to the correct operation type`; in both cases the state is left as it was,
whatever the handler is: the handler is not invoked. -/
theorem operationRequest_onPayload_errors {σ Base Operation Transaction : Type}
    (codec : Codec Base Operation Transaction) (handler : Operation → σ → σ)
    (data : GoString) (s : σ) :
    (∀ err, codec.unmarshalBase data = .error err →
      OperationRequest.onPayload codec handler data s =
        (s, some ⟨go "Error unmarshaling data" ++ go ": " ++ err.Error⟩)) ∧
    (∀ baseRecord err, codec.unmarshalBase data = .ok baseRecord →
      codec.UnmarshalOperation (codec.GetType baseRecord) data = .error err →
      OperationRequest.onPayload codec handler data s =
        (s, some ⟨go "Unmarshaling to the correct operation type" ++ go ": " ++ err.Error⟩)) := by
  constructor
  · intro err h
    simp only [OperationRequest.onPayload, h, errors.Wrap]
  · intro baseRecord err h1 h2
    simp only [OperationRequest.onPayload, h1, h2, errors.Wrap]

/-- Witness for C8: a payload of an unknown type, on a state with one record seen. -/
theorem operationRequest_onPayload_errors_witness :
    (sampleCodec.unmarshalBase (go "x9") = .ok (go "x") ∧
      sampleCodec.UnmarshalOperation (sampleCodec.GetType (go "x")) (go "x9") =
        .error ⟨go "unknown operation type"⟩) ∧
    OperationRequest.onPayload sampleCodec recordingHandler (go "x9") [go "c0"] =
      ([go "c0"], some ⟨go "Unmarshaling to the correct operation type" ++ go ": " ++
        go "unknown operation type"⟩) :=
  ⟨⟨rfl, rfl⟩,
    (operationRequest_onPayload_errors sampleCodec recordingHandler (go "x9") [go "c0"]).2
      (go "x") ⟨go "unknown operation type"⟩ rfl rfl⟩

/-- Claim C9: in the callback of `OperationRequest.Stream`, when the envelope decodes and
the dispatcher, called with the type of the envelope and the same payload bytes, returns
a record, the result is one step of the handler on that record, and no error. -/
theorem operationRequest_onPayload_handles {σ Base Operation Transaction : Type}
    (codec : Codec Base Operation Transaction) (handler : Operation → σ → σ)
    (data : GoString) (s : σ) (baseRecord : Base) (ops : Operation)
    (h1 : codec.unmarshalBase data = .ok baseRecord)
    (h2 : codec.UnmarshalOperation (codec.GetType baseRecord) data = .ok ops) :
    OperationRequest.onPayload codec handler data s = (handler ops s, none) := by
  simp only [OperationRequest.onPayload, h1, h2]

/-- Witness for C9: a payload of the known type is recorded once, after the record
already seen. -/
theorem operationRequest_onPayload_handles_witness :
    (sampleCodec.unmarshalBase (go "c1") = .ok (go "c") ∧
      sampleCodec.UnmarshalOperation (sampleCodec.GetType (go "c")) (go "c1") = .ok (go "c1")) ∧
    OperationRequest.onPayload sampleCodec recordingHandler (go "c1") [go "c0"] =
      (recordingHandler (go "c1") [go "c0"], none) ∧
    recordingHandler (go "c1") [go "c0"] = [go "c0", go "c1"] :=
  ⟨⟨rfl, rfl⟩,
    operationRequest_onPayload_handles sampleCodec recordingHandler (go "c1") [go "c0"]
      (go "c") (go "c1") rfl rfl,
    by decide⟩

/-- Claim C10: in the callback of `TransactionRequest.StreamTransactions`, a payload
that decodes as a transaction gives one step of the handler on the decoded transaction
and no error; a payload that does not decode returns the decode error wrapped with
`Error unmarshaling data` and leaves the state as it was; and the callback returns no
error exactly when the payload decodes. -/
theorem transactionRequest_onPayload_spec {σ Base Operation Transaction : Type}
    (codec : Codec Base Operation Transaction) (handler : Transaction → σ → σ)
    (data : GoString) (s : σ) :
    (∀ transaction, codec.unmarshalTransaction data = .ok transaction →
      TransactionRequest.onPayload codec handler data s = (handler transaction s, none)) ∧
    (∀ err, codec.unmarshalTransaction data = .error err →
      TransactionRequest.onPayload codec handler data s =
        (s, some ⟨go "Error unmarshaling data" ++ go ": " ++ err.Error⟩)) ∧
    ((TransactionRequest.onPayload codec handler data s).2 = none ↔
      ∃ transaction, codec.unmarshalTransaction data = .ok transaction) := by
  refine ⟨?_, ?_, ?_⟩
  · intro transaction h
    simp only [TransactionRequest.onPayload, h]
  · intro err h
    simp only [TransactionRequest.onPayload, h, errors.Wrap]
  · cases h : codec.unmarshalTransaction data with
    | error err => simp [TransactionRequest.onPayload, h, errors.Wrap]
    | ok transaction => simp [TransactionRequest.onPayload, h]

/-- Witness for C10: a payload that decodes is recorded once; one that does not is
reported and not recorded. -/
theorem transactionRequest_onPayload_spec_witness :
    (sampleCodec.unmarshalTransaction (go "\x7b1") = .ok (go "\x7b1") ∧
      sampleCodec.unmarshalTransaction (go "oops") =
        .error ⟨go "invalid character looking for beginning of value"⟩) ∧
    TransactionRequest.onPayload sampleCodec recordingHandler (go "\x7b1") [] =
      (recordingHandler (go "\x7b1") [], none) ∧
    TransactionRequest.onPayload sampleCodec recordingHandler (go "oops") [] =
      ([], some ⟨go "Error unmarshaling data" ++ go ": " ++
        go "invalid character looking for beginning of value"⟩) :=
  ⟨⟨rfl, rfl⟩,
    (transactionRequest_onPayload_spec sampleCodec recordingHandler (go "\x7b1") []).1
      (go "\x7b1") rfl,
    (transactionRequest_onPayload_spec sampleCodec recordingHandler (go "oops") []).2.1
      ⟨go "invalid character looking for beginning of value"⟩ rfl⟩

/-! ## Properties of the submit request -/

/-- Claim C11: `submitRequest.BuildUrl` fails exactly when the endpoint or the
transaction is empty, and then it returns the empty endpoint and the error
`Invalid request. Too few parameters`. -/
theorem submitRequest_buildUrl_fails_iff (sr : submitRequest) :
    ((sr.BuildUrl).2 ≠ none ↔ sr.endpoint = [] ∨ sr.transactionXdr = []) ∧
    (sr.endpoint = [] ∨ sr.transactionXdr = [] →
      sr.BuildUrl = ([], some ⟨go "Invalid request. Too few parameters"⟩)) := by
  constructor
  · by_cases h : sr.endpoint = [] ∨ sr.transactionXdr = []
    · simp [submitRequest.BuildUrl, h]
    · simp only [submitRequest.BuildUrl, h, if_false]
      simp
  · intro h
    simp only [submitRequest.BuildUrl, h, if_true, errors.New]

/-- Witness for C11: a request with an endpoint and no transaction. -/
theorem submitRequest_buildUrl_fails_iff_witness :
    (({ endpoint := go "transactions" } : submitRequest).endpoint = [] ∨
      ({ endpoint := go "transactions" } : submitRequest).transactionXdr = []) ∧
    submitRequest.BuildUrl { endpoint := go "transactions" } =
      ([], some ⟨go "Invalid request. Too few parameters"⟩) :=
  ⟨Or.inr rfl,
    (submitRequest_buildUrl_fails_iff { endpoint := go "transactions" }).2 (Or.inr rfl)⟩

/-- In a query component a byte is escaped exactly when it is not unreserved. -/
theorem shouldEscape_query (c : UInt8) :
    url.shouldEscape c .encodeQueryComponent = !(url.isAlnum c || url.isMark c) := by
  unfold url.shouldEscape
  cases h1 : url.isAlnum c <;> cases h2 : url.isMark c <;> cases h3 : url.isReserved c <;> simp

/-- The text `url.QueryEscape` writes for one more byte in front. -/
theorem queryEscape_cons (c : UInt8) (t : GoString) :
    url.QueryEscape (c :: t) =
      (if c.toNat = 32 then [43]
        else if url.isAlnum c || url.isMark c then [c]
        else [37, url.upperhex (c.toNat / 16), url.upperhex (c.toNat % 16)]) ++
      url.QueryEscape t := by
  simp only [url.QueryEscape, url.escape, List.flatMap_cons, shouldEscape_query]
  by_cases h : c.toNat = 32 <;> cases h2 : (url.isAlnum c || url.isMark c) <;> simp [h]

/-- The hexadecimal digit `upperhex` writes for a value below 16. -/
theorem upperhex_toNat (n : Nat) (hn : n < 16) :
    (url.upperhex n).toNat = if n < 10 then 48 + n else 55 + n := by
  unfold url.upperhex
  split_ifs <;> exact UInt8.toNat_ofNat_of_lt (by simp [UInt8.size]; omega)

/-- A digit written by `upperhex` is read back by `ishex` and `unhex`. -/
theorem unhex_upperhex (n : Nat) (hn : n < 16) :
    url.ishex (url.upperhex n) = true ∧ url.unhex (url.upperhex n) = n := by
  by_cases h10 : n < 10
  · have h : (url.upperhex n).toNat = 48 + n := by rw [upperhex_toNat n hn, if_pos h10]
    have a1 : 48 + n ≤ 57 := by omega
    unfold url.ishex url.unhex
    rw [h]
    simp [a1]
  · have h : (url.upperhex n).toNat = 55 + n := by rw [upperhex_toNat n hn, if_neg h10]
    have a1 : ¬ (55 + n ≤ 57) := by omega
    have a2 : ¬ (97 ≤ 55 + n) := by omega
    have a3 : 65 ≤ 55 + n := by omega
    have a4 : 55 + n ≤ 70 := by omega
    unfold url.ishex url.unhex
    rw [h]
    simp [a1, a2, a3, a4]
    omega

/-- The decoding pass of `unescape` keeps a byte that is neither `%` nor `+`. -/
theorem unescapeDecode_cons_plain (mode : url.encoding) (c : UInt8) (s : GoString)
    (h1 : c.toNat ≠ 37) (h2 : c.toNat ≠ 43) :
    url.unescapeDecode mode (c :: s) = c :: url.unescapeDecode mode s := by
  match s with
  | [] => simp [url.unescapeDecode, h1, h2]
  | [d] => simp [url.unescapeDecode, h1, h2]
  | d :: e :: r => simp [url.unescapeDecode, h1, h2]

/-- The decoding pass of `unescape` reads a `+` of a query component as a space. -/
theorem unescapeDecode_cons_plus (s : GoString) :
    url.unescapeDecode .encodeQueryComponent (43 :: s) =
      32 :: url.unescapeDecode .encodeQueryComponent s := by
  match s with
  | [] => simp [url.unescapeDecode, UInt8.size]
  | [d] => simp [url.unescapeDecode, UInt8.size]
  | d :: e :: r => simp [url.unescapeDecode, UInt8.size]

/-- The decoding pass of `unescape` reads `%XX` as one byte. -/
theorem unescapeDecode_cons_escape (mode : url.encoding) (h1 h2 : UInt8) (s : GoString) :
    url.unescapeDecode mode (37 :: h1 :: h2 :: s) =
      UInt8.ofNat (url.unhex h1 * 16 + url.unhex h2) :: url.unescapeDecode mode s := by
  simp [url.unescapeDecode, UInt8.size]

/-- In a query component the validation pass of `unescape` steps over a byte that is
not `%`. -/
theorem unescapeError_query_cons (c : UInt8) (s : GoString) (hc : c.toNat ≠ 37) :
    url.unescapeError .encodeQueryComponent (c :: s) =
      url.unescapeError .encodeQueryComponent s := by
  match s with
  | [] => by_cases h : c.toNat = 43 <;> simp [url.unescapeError, hc, h]
  | [d] => by_cases h : c.toNat = 43 <;> simp [url.unescapeError, hc, h]
  | d :: e :: r => by_cases h : c.toNat = 43 <;> simp [url.unescapeError, hc, h]

/-- In a query component the validation pass of `unescape` steps over a well-formed
escape. -/
theorem unescapeError_query_escape (h1 h2 : UInt8) (s : GoString)
    (a1 : url.ishex h1 = true) (a2 : url.ishex h2 = true) :
    url.unescapeError .encodeQueryComponent (37 :: h1 :: h2 :: s) =
      url.unescapeError .encodeQueryComponent s := by
  have h37 : (37 : UInt8).toNat = 37 := by decide
  simp [url.unescapeError, h37, a1, a2]

/-- The byte rebuilt from its two hexadecimal digits. -/
theorem byte_of_digits (c : UInt8) :
    UInt8.ofNat (url.unhex (url.upperhex (c.toNat / 16)) * 16 +
      url.unhex (url.upperhex (c.toNat % 16))) = c := by
  have hlt : c.toNat < 256 := c.toNat_lt
  rw [(unhex_upperhex (c.toNat / 16) (by omega)).2, (unhex_upperhex (c.toNat % 16) (by omega)).2]
  apply UInt8.ext
  rw [UInt8.toNat_ofNat_of_lt (by simp [UInt8.size]; omega)]
  omega

/-- The text of `url.QueryEscape` passes the validation of `unescape`. -/
theorem unescapeError_queryEscape (x : GoString) :
    url.unescapeError .encodeQueryComponent (url.QueryEscape x) = none := by
  induction x with
  | nil => rfl
  | cons c t ih =>
    have hlt : c.toNat < 256 := c.toNat_lt
    rw [queryEscape_cons]
    by_cases h32 : c.toNat = 32
    · simp only [h32, if_true, List.singleton_append]
      rw [unescapeError_query_cons _ _ (by decide), ih]
    · by_cases hu : (url.isAlnum c || url.isMark c) = true
      · simp only [h32, hu, if_true, if_false, List.singleton_append]
        have h37 : c.toNat ≠ 37 := by
          simp [url.isAlnum, url.isMark] at hu
          omega
        rw [unescapeError_query_cons _ _ h37, ih]
      · have hu' : (url.isAlnum c || url.isMark c) = false := by simpa using hu
        simp only [h32, hu', if_false, Bool.false_eq_true, List.cons_append, List.nil_append]
        rw [unescapeError_query_escape _ _ _ (unhex_upperhex (c.toNat / 16) (by omega)).1
          (unhex_upperhex (c.toNat % 16) (by omega)).1, ih]

/-- The decoding pass of `unescape` gives back the text that `url.QueryEscape` was
applied to. -/
theorem unescapeDecode_queryEscape (x : GoString) :
    url.unescapeDecode .encodeQueryComponent (url.QueryEscape x) = x := by
  induction x with
  | nil => rfl
  | cons c t ih =>
    rw [queryEscape_cons]
    by_cases h32 : c.toNat = 32
    · have hc : c = 32 := UInt8.ext (by rw [h32]; decide)
      simp only [h32, if_true, List.singleton_append]
      rw [unescapeDecode_cons_plus, ih, hc]
    · by_cases hu : (url.isAlnum c || url.isMark c) = true
      · simp only [h32, hu, if_true, if_false, List.singleton_append]
        have h37 : c.toNat ≠ 37 ∧ c.toNat ≠ 43 := by
          simp [url.isAlnum, url.isMark] at hu
          omega
        rw [unescapeDecode_cons_plain _ _ _ h37.1 h37.2, ih]
      · have hu' : (url.isAlnum c || url.isMark c) = false := by simpa using hu
        simp only [h32, hu', if_false, Bool.false_eq_true, List.cons_append, List.nil_append]
        rw [unescapeDecode_cons_escape, ih, byte_of_digits]

/-- The decoding pass of `unescape` keeps a text without `%` and without `+`. -/
theorem unescapeDecode_plain (mode : url.encoding) (s : GoString)
    (h : ∀ c ∈ s, c.toNat ≠ 37 ∧ c.toNat ≠ 43) : url.unescapeDecode mode s = s := by
  induction s with
  | nil => rfl
  | cons c t ih =>
    have hc := h c (List.mem_cons_self _ _)
    have ht := ih fun b hb => h b (List.mem_cons_of_mem _ hb)
    rw [unescapeDecode_cons_plain _ _ _ hc.1 hc.2, ht]

/-- Unescaping what `url.QueryEscape` wrote gives back the text. -/
theorem queryUnescape_queryEscape (x : GoString) :
    url.QueryUnescape (url.QueryEscape x) = .ok x := by
  simp only [url.QueryUnescape, url.unescape, unescapeError_queryEscape]
  split_ifs with h
  · have hp : ∀ c ∈ url.QueryEscape x, c.toNat ≠ 37 ∧ c.toNat ≠ 43 := by
      simp only [Bool.and_eq_true, List.all_eq_true, decide_eq_true_eq, Bool.not_eq_true',
        Bool.and_eq_false_imp, List.any_eq_false, true_and] at h
      intro c hc
      refine ⟨h.1 c hc, ?_⟩
      have := h.2 (by decide) c hc
      simpa using this
    have := unescapeDecode_plain .encodeQueryComponent _ hp
    rw [unescapeDecode_queryEscape] at this
    rw [← this]
  · rw [unescapeDecode_queryEscape]

/-- The bytes `url.QueryEscape` writes: unreserved bytes, `%` with its two digits, and
`+`, the latter only for a space of the text. -/
theorem queryEscape_alphabet (x : GoString) :
    ∀ b ∈ url.QueryEscape x,
      (url.isAlnum b || url.isMark b) = true ∨ b.toNat = 37 ∨
        (b.toNat = 43 ∧ ∃ c ∈ x, c.toNat = 32) := by
  induction x with
  | nil => intro b hb; simp [url.QueryEscape, url.escape] at hb
  | cons c t ih =>
    have hlt : c.toNat < 256 := c.toNat_lt
    intro b hb
    rw [queryEscape_cons, List.mem_append] at hb
    rcases hb with hb | hb
    · by_cases h32 : c.toNat = 32
      · simp only [h32, if_true, List.mem_singleton] at hb
        subst hb
        exact Or.inr (Or.inr ⟨by decide, c, List.mem_cons_self _ _, h32⟩)
      · by_cases hu : (url.isAlnum c || url.isMark c) = true
        · simp only [h32, hu, if_true, if_false, List.mem_singleton] at hb
          subst hb
          exact Or.inl hu
        · have hu' : (url.isAlnum c || url.isMark c) = false := by simpa using hu
          simp only [h32, hu', if_false, Bool.false_eq_true, List.mem_cons, List.mem_singleton,
            List.not_mem_nil, or_false] at hb
          rcases hb with rfl | rfl | rfl
          · exact Or.inr (Or.inl (by decide))
          · left
            have h := upperhex_toNat (c.toNat / 16) (by omega)
            simp only [url.isAlnum, h]
            split_ifs <;> simp <;> omega
          · left
            have h := upperhex_toNat (c.toNat % 16) (by omega)
            simp only [url.isAlnum, h]
            split_ifs <;> simp <;> omega
    · rcases ih b hb with h | h | ⟨h, c', hc', h32⟩
      · exact Or.inl h
      · exact Or.inr (Or.inl h)
      · exact Or.inr (Or.inr ⟨h, c', List.mem_cons_of_mem _ hc', h32⟩)

/-- The text `url.QueryEscape` writes, byte by byte: `+` for a space, and what
`percentEncode` writes for every other byte. -/
theorem queryEscape_eq_flatMap (x : GoString) :
    url.QueryEscape x =
      x.flatMap fun c => if c.toNat = 32 then [43] else percentEncode [c] := by
  induction x with
  | nil => rfl
  | cons c t ih =>
    rw [queryEscape_cons, ih, List.flatMap_cons]
    by_cases h32 : c.toNat = 32 <;> simp [h32, percentEncode]

/-- On a text without space `url.QueryEscape` is `percentEncode`. -/
theorem queryEscape_eq_percentEncode (x : GoString) (h : ∀ c ∈ x, c.toNat ≠ 32) :
    url.QueryEscape x = percentEncode x := by
  induction x with
  | nil => rfl
  | cons c t ih =>
    have hc := h c (List.mem_cons_self _ _)
    have ht := ih fun b hb => h b (List.mem_cons_of_mem _ hb)
    rw [queryEscape_cons, ht]
    simp [hc, percentEncode]

/-- The query string of a submit request: the key `tx` and the escaped transaction. -/
theorem encode_tx (x : GoString) :
    url.Values.Encode (url.Values.Set [] (go "tx") x) = go "tx=" ++ url.QueryEscape x := by
  have k : url.QueryEscape (go "tx") = go "tx" := by decide
  have a : go "tx=" = go "tx" ++ [61] := by decide
  simp [url.Values.Set, url.Values.Encode, url.sortStrings, url.insertSorted, url.encodeKey,
    url.Values.lookup, k, a]

/-- Counterexample to C12: the transaction text `a b` is written `a+b`: the space is not
percent-encoded, the result differs from the percent-encoded text `a%20b`, and a raw `+`
stands after `tx=`. -/
theorem submitRequest_space_as_plus :
    submitRequest.BuildUrl { endpoint := go "transactions", transactionXdr := go "a b" } =
      (go "transactions" ++ go "?tx=" ++ go "a+b", none) ∧
    percentEncode (go "a b") = go "a%20b" ∧
    go "a+b" ≠ percentEncode (go "a b") ∧ (43 : UInt8) ∈ go "a+b" := by
  decide

/-- Claim C12, amended: with a non-empty endpoint `e` and a non-empty transaction `x`,
`BuildUrl` returns `e?tx=` followed by `url.QueryEscape x`, which writes a space as `+`
and percent-encodes every other byte that is not unreserved; `/` and `=` never stand raw
in it, nor does `+` when `x` holds no space, in which case the text is exactly the
percent-encoding; and `url.QueryUnescape` gives back `x`. -/
theorem submitRequest_buildUrl_escaped (sr : submitRequest) (hE : sr.endpoint ≠ [])
    (hX : sr.transactionXdr ≠ []) :
    sr.BuildUrl = (sr.endpoint ++ go "?tx=" ++ url.QueryEscape sr.transactionXdr, none) ∧
    url.QueryEscape sr.transactionXdr =
      (sr.transactionXdr.flatMap fun c => if c.toNat = 32 then [43] else percentEncode [c]) ∧
    (∀ b ∈ url.QueryEscape sr.transactionXdr, b.toNat ≠ 47 ∧ b.toNat ≠ 61) ∧
    ((∀ c ∈ sr.transactionXdr, c.toNat ≠ 32) →
      url.QueryEscape sr.transactionXdr = percentEncode sr.transactionXdr ∧
        ∀ b ∈ url.QueryEscape sr.transactionXdr, b.toNat ≠ 43) ∧
    url.QueryUnescape (url.QueryEscape sr.transactionXdr) = .ok sr.transactionXdr := by
  refine ⟨?_, queryEscape_eq_flatMap _, ?_, ?_, queryUnescape_queryEscape _⟩
  · have a : go "?tx=" = go "?" ++ go "tx=" := by decide
    simp only [submitRequest.BuildUrl, hE, hX, or_self, if_false, encode_tx, a, List.append_assoc]
  · intro b hb
    rcases queryEscape_alphabet _ b hb with h | h | ⟨h, -⟩
    · simp [url.isAlnum, url.isMark] at h
      omega
    · omega
    · omega
  · intro hs
    refine ⟨queryEscape_eq_percentEncode _ hs, ?_⟩
    intro b hb
    rcases queryEscape_alphabet _ b hb with h | h | ⟨-, c, hc, h32⟩
    · simp [url.isAlnum, url.isMark] at h
      omega
    · omega
    · exact absurd h32 (hs c hc)

/-- Witness for C12, amended: a base64 text with `+`, `/` and `=`. -/
theorem submitRequest_buildUrl_escaped_witness :
    (go "transactions" ≠ [] ∧ go "AAAA+/8=" ≠ []) ∧
    submitRequest.BuildUrl { endpoint := go "transactions", transactionXdr := go "AAAA+/8=" } =
      (go "transactions" ++ go "?tx=" ++ url.QueryEscape (go "AAAA+/8="), none) ∧
    url.QueryEscape (go "AAAA+/8=") = go "AAAA%2B%2F8%3D" :=
  ⟨by decide,
    (submitRequest_buildUrl_escaped
      { endpoint := go "transactions", transactionXdr := go "AAAA+/8=" }
      (by decide) (by decide)).1,
    by decide⟩

/-! ## Properties of the endpoint setters -/

/-- Claim C13: `SetPaymentsEndpoint` sets the endpoint to `payments`,
`SetOperationsEndpoint` to `operations`, `setEndpoint` with any other string than
`payments` to `operations`; no other field is changed; and after either setter
`BuildUrl` does not fail with `Internal error, endpoint not set`, on any request. -/
theorem operationRequest_setEndpoint_spec (Parse : GoString → Option GoError)
    (r : OperationRequest) :
    r.SetPaymentsEndpoint.endpoint = go "payments" ∧
    r.SetOperationsEndpoint.endpoint = go "operations" ∧
    (∀ e, e ≠ go "payments" → (r.setEndpoint e).endpoint = go "operations") ∧
    (∀ e, (r.setEndpoint e).ForAccount = r.ForAccount ∧
      (r.setEndpoint e).ForLedger = r.ForLedger ∧
      (r.setEndpoint e).ForTransaction = r.ForTransaction ∧
      (r.setEndpoint e).forOperationId = r.forOperationId ∧
      (r.setEndpoint e).Order = r.Order ∧ (r.setEndpoint e).Cursor = r.Cursor ∧
      (r.setEndpoint e).Limit = r.Limit ∧ (r.setEndpoint e).IncludeFailed = r.IncludeFailed) ∧
    (r.SetPaymentsEndpoint.BuildUrl Parse).2 ≠
      some ⟨go "Internal error, endpoint not set"⟩ ∧
    (r.SetOperationsEndpoint.BuildUrl Parse).2 ≠
      some ⟨go "Internal error, endpoint not set"⟩ := by
  have hp : r.SetPaymentsEndpoint.endpoint = go "payments" := by
    simp [OperationRequest.SetPaymentsEndpoint, OperationRequest.setEndpoint]
  have ho : r.SetOperationsEndpoint.endpoint = go "operations" := by
    simp only [OperationRequest.SetOperationsEndpoint, OperationRequest.setEndpoint]
    split_ifs <;> rfl
  have f1 : go "failed to parse endpoint" = 102 :: go "ailed to parse endpoint" := by decide
  have f2 : go "Internal error, endpoint not set" = 73 :: go "nternal error, endpoint not set" := by
    decide
  have f3 : go "Invalid request. Too many parameters" ≠ go "Internal error, endpoint not set" := by
    decide
  have key : ∀ q : OperationRequest, q.endpoint ≠ [] →
      (q.BuildUrl Parse).2 ≠ some ⟨go "Internal error, endpoint not set"⟩ := by
    intro q hq
    unfold OperationRequest.BuildUrl
    by_cases h1 : countParams [.str q.ForAccount, .uint q.ForLedger, .str q.forOperationId,
        .str q.ForTransaction] > 1
    · simp only [h1, if_true, errors.New]
      intro h
      exact f3 (congrArg GoError.Error (Option.some.inj h))
    · simp only [h1, hq, if_false]
      generalize Parse _ = res
      cases res with
      | none => simp [errors.Wrap]
      | some e =>
        simp only [errors.Wrap]
        intro h
        have h' := congrArg GoError.Error (Option.some.inj h)
        simp only [f1, f2, List.cons_append] at h'
        exact absurd (List.cons.inj h').1 (by decide)
  refine ⟨hp, ho, ?_, ?_, key _ (by rw [hp]; decide), key _ (by rw [ho]; decide)⟩
  · intro e he
    simp [OperationRequest.setEndpoint, he]
  · intro e
    simp only [OperationRequest.setEndpoint]
    split_ifs <;> simp

/-- Witness for C13: a request for one account whose endpoint is set from another
string than `payments`. -/
theorem operationRequest_setEndpoint_spec_witness :
    go "effects" ≠ go "payments" ∧
    (OperationRequest.setEndpoint { ForAccount := go "GABC" } (go "effects")).endpoint =
      go "operations" :=
  ⟨by decide,
    (operationRequest_setEndpoint_spec (url.Parse fun _ _ => [])
      { ForAccount := go "GABC" }).2.2.1 (go "effects") (by decide)⟩

/-! ## Properties of the stream session -/

/-- Claim C14: when the initial response has a status outside 200..299, the stream
session returns the error `Got bad HTTP status code <code>` and leaves the state as it
was, whatever the callback; so do `OperationRequest.Stream` and
`TransactionRequest.StreamTransactions` on a request whose URL builds, whatever the
handler: it is invoked zero times. -/
theorem stream_bad_status {σ Base Operation Transaction : Type}
    (resp : Response) (h : resp.StatusCode < 200 ∨ resp.StatusCode ≥ 300)
    (Parse : GoString → Option GoError) (horizonURL : GoString) (http : GoString → Response)
    (codec : Codec Base Operation Transaction) (s : σ) :
    (∀ onPayload : GoString → σ → σ × Option GoError,
      runSession resp onPayload s =
        (s, some ⟨go "Got bad HTTP status code " ++ strconv.Itoa resp.StatusCode⟩)) ∧
    (∀ (op : OperationRequest) (ep : GoString) (handler : Operation → σ → σ),
      op.BuildUrl Parse = (ep, none) → http (horizonURL ++ ep) = resp →
      op.Stream Parse (sessionClient horizonURL http) codec handler s =
        (s, some ⟨go "Got bad HTTP status code " ++ strconv.Itoa resp.StatusCode⟩)) ∧
    (∀ (tr : TransactionRequest) (ep : GoString) (handler : Transaction → σ → σ),
      tr.BuildUrl Parse = (ep, none) → http (horizonURL ++ ep) = resp →
      tr.StreamTransactions Parse (sessionClient horizonURL http) codec handler s =
        (s, some ⟨go "Got bad HTTP status code " ++ strconv.Itoa resp.StatusCode⟩)) := by
  have hrun : ∀ onPayload : GoString → σ → σ × Option GoError,
      runSession resp onPayload s =
        (s, some ⟨go "Got bad HTTP status code " ++ strconv.Itoa resp.StatusCode⟩) := by
    intro onPayload
    simp only [runSession, h, if_true]
  refine ⟨hrun, ?_, ?_⟩
  · intro op ep handler hB hH
    simp only [OperationRequest.Stream, hB, sessionClient, hH, hrun]
  · intro tr ep handler hB hH
    simp only [TransactionRequest.StreamTransactions, hB, sessionClient, hH, hrun]

/-- Witness for C14: the service answers 500 with a body that holds one payload; the
operations request of the test gets the error and records nothing. -/
theorem stream_bad_status_witness :
    ((500 : Nat) < 200 ∨ (500 : Nat) ≥ 300) ∧
    OperationRequest.Stream (url.Parse fun _ _ => [])
        (OperationRequest.SetOperationsEndpoint {})
        (sessionClient (go "https://localhost/") fun _ => ⟨500, [go "c1"]⟩)
        sampleCodec recordingHandler [] =
      ([], some ⟨go "Got bad HTTP status code " ++ strconv.Itoa 500⟩) ∧
    go "Got bad HTTP status code " ++ strconv.Itoa 500 = go "Got bad HTTP status code 500" :=
  ⟨by decide,
    (stream_bad_status ⟨500, [go "c1"]⟩ (by decide) (url.Parse fun _ _ => [])
      (go "https://localhost/") (fun _ => ⟨500, [go "c1"]⟩) sampleCodec []).2.1
      (OperationRequest.SetOperationsEndpoint {}) (go "operations") recordingHandler
      (by decide) rfl,
    by decide⟩

/-! ## Properties of `horizon-verify` -/

/-- The decrement of a count between 1 and the largest `uint` is the predecessor. -/
theorem decrement_pos (count : Nat) (h0 : 0 < count) (h1 : count < 2 ^ 64) :
    horizonverify.decrement count = count - 1 := by
  unfold horizonverify.decrement
  omega

/-- The inner loop on a page whose ledgers all pass, with a count between 1 and the
largest `uint`: it goes through the page when the page is shorter than the count, and
is done after `count` ledgers otherwise. -/
theorem checkRecords_pass {Ledger : Type} (check : Ledger → Bool) (records : List Ledger)
    (hpass : ∀ l ∈ records, check l = true) (count checked : Nat)
    (h0 : 0 < count) (h1 : count < 2 ^ 64) :
    horizonverify.checkRecords check records count checked =
      if records.length < count then .next (count - records.length) (checked + records.length)
      else .over (.done (checked + count)) := by
  induction records generalizing count checked with
  | nil => simp [horizonverify.checkRecords, h0]
  | cons l ls ih =>
    have hl := hpass l (List.mem_cons_self _ _)
    have hls := fun x hx => hpass x (List.mem_cons_of_mem _ hx)
    have hd := decrement_pos count h0 h1
    simp only [horizonverify.checkRecords, hl, if_true, hd, List.length_cons]
    by_cases hc : count = 1
    · subst hc
      simp
    · have hne : count - 1 ≠ 0 := by omega
      rw [if_neg hne, ih hls (count - 1) (checked + 1) (by omega) (by omega)]
      by_cases hlen : ls.length < count - 1
      · have e1 : count - 1 - ls.length = count - (ls.length + 1) := by omega
        have e2 : checked + 1 + ls.length = checked + (ls.length + 1) := by omega
        rw [if_pos hlen, if_pos (by omega), e1, e2]
      · have e3 : checked + 1 + (count - 1) = checked + count := by omega
        rw [if_neg hlen, if_neg (by omega), e3]

/-- The main loop with a count between 1 and the largest `uint`, on pages whose ledgers
all pass: it ends with `Done` after the smaller of the count and the number of ledgers
available. -/
theorem mainLoop_pass {Ledger : Type} (check : Ledger → Bool) (pages : List (List Ledger))
    (hpass : ∀ page ∈ pages, ∀ l ∈ page, check l = true) (count checked : Nat)
    (h0 : 0 < count) (h1 : count < 2 ^ 64) :
    horizonverify.mainLoop check pages count checked =
      .done (checked + min count (horizonverify.available pages)) := by
  induction pages generalizing count checked with
  | nil => simp [horizonverify.mainLoop, horizonverify.available]
  | cons page pages ih =>
    have hp := hpass page (List.mem_cons_self _ _)
    have hps := fun x hx => hpass x (List.mem_cons_of_mem _ hx)
    by_cases hlen : page.length = 0
    · simp [horizonverify.mainLoop, horizonverify.available, hlen]
    · simp only [horizonverify.mainLoop, horizonverify.available, hlen, if_false,
        checkRecords_pass check page hp count checked h0 h1]
      by_cases hlt : page.length < count
      · have e1 : checked + page.length + min (count - page.length) (horizonverify.available pages) =
            checked + min count (page.length + horizonverify.available pages) := by omega
        simp only [hlt, if_true]
        rw [ih hps _ _ (by omega) (by omega), e1]
      · have e2 : min count (page.length + horizonverify.available pages) = count := by omega
        simp only [hlt, if_false]
        rw [e2]

/-- Claim C16, at the failing input: with `--count 0` and a service that has one page of
three ledgers, the first decrement wraps around, the loop goes through the three ledgers
and prints `Done` after three checks, while the smaller of the count and the number of
ledgers available is zero. -/
theorem mainLoop_count_zero :
    horizonverify.mainLoop (fun _ : Nat => true) [[30, 29, 28]] 0 0 = .done 3 ∧
    min 0 (horizonverify.available [[30, 29, 28]]) = 0 ∧
    horizonverify.decrement 0 = 2 ^ 64 - 1 := by
  decide
